import Mathlib

/-!
Shallow embedding of the factom-did-js core: DID builder, entry export,
update/upgrade/deactivate protocols and the key-algorithm adapters.
Cryptographic primitives (SHA-256, base58, the three signature schemes)
are external collaborators of the library; they are modelled as an
explicit parameter record `Crypto`, and byte strings as `List Nat`.
-/

namespace FactomDID

deriving instance DecidableEq for Except

/-- Byte strings (Node `Buffer` / `Uint8Array`) are lists of byte values. -/
abbrev Bytes := List Nat

/-- UTF-8 encoding of a single character (standard 1-4 byte branching). -/
def utf8Char (c : Char) : Bytes :=
  let n := c.toNat
  if n < 0x80 then [n]
  else if n < 0x800 then [0xC0 + n / 64, 0x80 + n % 64]
  else if n < 0x10000 then [0xE0 + n / 4096, 0x80 + n / 64 % 64, 0x80 + n % 64]
  else [0xF0 + n / 262144, 0x80 + n / 4096 % 64, 0x80 + n / 64 % 64, 0x80 + n % 64]

/-- `Buffer.from(s, 'utf-8')`: UTF-8 bytes of a string. -/
def utf8 (s : String) : Bytes :=
  (s.data.map utf8Char).flatten

/-- Lowercase hex digit for a value below 16. -/
def hexDigitChar (n : Nat) : Char :=
  if n < 10 then Char.ofNat (48 + n) else Char.ofNat (97 + (n - 10))

/-- Lowercase hex encoding of a byte string (Node `digest('hex')`). -/
def bytesToHex (b : Bytes) : String :=
  String.mk (b.map (fun x => [hexDigitChar (x / 16 % 16), hexDigitChar (x % 16)])).flatten

/-- External cryptographic collaborators consumed by the library: SHA-256,
base58 codec, public-key derivation and the three signing primitives.
The library treats all of them as black boxes (spec section 6: "External
collaborators consumed, not implemented here"). -/
structure Crypto where
  sha256 : Bytes → Bytes
  b58enc : Bytes → String
  b58dec : String → Bytes
  /-- `nacl.sign.keyPair.fromSecretKey(sk).publicKey`. -/
  edPubOfSecret : Bytes → Bytes
  /-- `ec.keyFromPrivate(sk).getPublic(true, 'hex')` as bytes. -/
  ecPubOfSecret : Bytes → Bytes
  /-- Whether `ec.keyFromPublic` accepts the bytes without throwing. -/
  ecPubValid : Bytes → Bool
  /-- The mathematical public-key-of-private-key correspondence for RSA
  (what a correspondence check would compute; `RSAKey` never consults it). -/
  rsaPubOfPriv : String → String
  /-- `nacl.sign.detached(msg, sk)` (msg is already a digest at call sites). -/
  edSign : Bytes → Bytes → Bytes
  /-- `ec.keyFromPrivate(sk).sign(digest).toDER()`. -/
  ecSign : Bytes → Bytes → Bytes
  /-- `crypto.createSign('SHA256')` + `sign(pem)`: hashing happens inside. -/
  rsaSign : String → Bytes → Bytes

/-! ### Constants

`src/constants` is not part of the provided sources; the values below are
modelled from the spec. -/

/-- Modelled from the spec: the DID method name of §6's identifier grammar
(`did:factom` for this library, per the README's Factom DID method). -/
def DID_METHOD_NAME : String := "did:factom"

/-- Modelled from the spec: the default DID method spec version `0.2.0`
(§4.4; the upgrader example moves from it to `0.3.0`). -/
def DID_METHOD_SPEC_V020 : String := "0.2.0"

/-- Modelled from the spec: the schema-version tag, `1.0.0` (§6). -/
def ENTRY_SCHEMA_V100 : String := "1.0.0"

/-- Modelled from the spec: the entry size ceiling, 10,000 bytes (§6). -/
def ENTRY_SIZE_LIMIT : Nat := 10000

/-! ### Enums (`src/enums`) -/

inductive Network where
  | mainnet
  | testnet
  | unspecified
deriving DecidableEq

def Network.toStr : Network → String
  | .mainnet => "mainnet"
  | .testnet => "testnet"
  | .unspecified => ""

inductive KeyType where
  | edDSA
  | ecDSA
  | rsa
deriving DecidableEq

def KeyType.toStr : KeyType → String
  | .edDSA => "Ed25519VerificationKey"
  | .ecDSA => "ECDSASecp256k1VerificationKey"
  | .rsa => "RSAVerificationKey"

inductive DIDKeyPurpose where
  | publicKey
  | authenticationKey
deriving DecidableEq

def DIDKeyPurpose.toStr : DIDKeyPurpose → String
  | .publicKey => "publicKey"
  | .authenticationKey => "authenticationKey"

def entryTypeCreate : String := "DIDManagement"
def entryTypeUpdate : String := "DIDUpdate"
def entryTypeDeactivation : String := "DIDDeactivation"
def entryTypeVersionUpgrade : String := "DIDMethodVersionUpgrade"

/-! ### Validators (`src/validators`) -/

def isAliasChar (c : Char) : Bool :=
  (97 ≤ c.toNat && c.toNat ≤ 122) || (48 ≤ c.toNat && c.toNat ≤ 57) || c = '-'

/-- The «alias» pattern `^[a-z0-9-]{1,32}$`. -/
def validAlias (s : String) : Bool :=
  1 ≤ s.data.length && s.data.length ≤ 32 && s.data.all isAliasChar

def isHexLowerChar (c : Char) : Bool :=
  (48 ≤ c.toNat && c.toNat ≤ 57) || (97 ≤ c.toNat && c.toNat ≤ 102)

/-- `s.split(':')` on the character list. -/
def splitColon : List Char → List (List Char)
  | [] => [[]]
  | c :: cs =>
    if c = ':' then [] :: splitColon cs
    else
      match splitColon cs with
      | [] => [[c]]
      | g :: gs => (c :: g) :: gs

def hex64 (l : List Char) : Bool :=
  l.length = 64 && l.all isHexLowerChar

/-- The DID identifier grammar
`^did:factom:((mainnet|testnet):)?[a-f0-9]{64}$`, structurally: split on
colons, it is `did`, `factom`, an optional network segment, and 64
lowercase-hex characters. -/
def isValidDIDId (s : String) : Bool :=
  match splitColon s.data with
  | [d, m, c] => d = "did".data && m = "factom".data && hex64 c
  | [d, m, n, c] =>
    d = "did".data && m = "factom".data &&
      (n = "mainnet".data || n = "testnet".data) && hex64 c
  | _ => false

/-- `priorityRequirement` must be absent or a non-negative integer.
JS numbers restricted to integers are modelled as `Int`, which makes
`Number.isInteger` hold by construction. -/
def validPriorityRequirement (p : Option Int) : Bool :=
  match p with
  | none => true
  | some x => 0 ≤ x

/-- Approximation of the endpoint URL regex: an `http://` or `https://`
scheme followed by a non-empty remainder. No claim depends on the exact
extent of the accepted language. -/
def validServiceEndpoint (s : String) : Bool :=
  (("http://".data).isPrefixOf s.data && 7 < s.data.length) ||
  (("https://".data).isPrefixOf s.data && 8 < s.data.length)

/-! ### Entry size and chain id (`src/blockchain`) -/

/-- `calculateEntrySize(extIds, content)`: 35-byte fixed header, 2 bytes
per extId, plus the byte lengths of the content and of every extId. -/
def calculateEntrySize (extIds : List Bytes) (content : Bytes) : Nat :=
  35 + 2 * extIds.length + content.length + (extIds.map List.length).sum

/-- `calculateChainId(extIds)`: concatenate the SHA-256 digests of the
extIds in order (the source's `reduce` with `Buffer.concat`), hash the
concatenation and return it as lowercase hex. -/
def calculateChainId (C : Crypto) (extIds : List Bytes) : String :=
  bytesToHex (C.sha256 (extIds.foldl (fun total cur => total ++ C.sha256 cur) []))

/-! ### Key algorithm adapters (`src/keys/eddsa`, `src/keys/ecdsa`, `src/keys/rsa`)

A key constructor argument is a base58/PEM string or a raw buffer.
Key generation draws from a CSPRNG; the freshly generated pair is modelled
as an explicit argument so that all definitions stay pure. -/

inductive KeyArg where
  | str (s : String)
  | buf (b : Bytes)
deriving DecidableEq

/-- The variant-specific raw key material held by an adapter instance:
verifying key plus optional signing key (PEM strings for RSA, byte
strings for Ed25519/ECDSA; an RSA instance may also lack a public key). -/
inductive Underlying where
  | ed (verifying : Bytes) (signing : Option Bytes)
  | ec (verifying : Bytes) (signing : Option Bytes)
  | rsa (verifying : Option String) (signing : Option String)
deriving DecidableEq

/-- Freshly generated key pairs for the three algorithms, standing for the
CSPRNG draws of `_generateNewKeyPair`. -/
structure FreshKeyMaterial where
  edPair : Bytes × Bytes
  ecPair : Bytes × Bytes
  rsaPair : String × String
deriving DecidableEq

def emptyFresh : FreshKeyMaterial := ⟨([], []), ([], []), ("", "")⟩

/-- Base58-decode a string argument, pass a buffer through. -/
def decodeArg (C : Crypto) : KeyArg → Bytes
  | .str s => C.b58dec s
  | .buf b => b

def pubPrivMismatchMsg : String :=
  "The provided public key does not match the one derived from the provided private key."

/-- `new Ed25519Key(publicKey?, privateKey?)`. With no arguments a fresh
pair is generated; with a private key the public key is derived via
`nacl.sign.keyPair.fromSecretKey` and compared against a supplied public
key; with only a public key its length must be 32. -/
def mkEd25519Key (C : Crypto) (fresh : Bytes × Bytes) :
    Option KeyArg → Option KeyArg → Except String Underlying
  | none, none => .ok (.ed fresh.1 (some fresh.2))
  | publicKey?, some privateKey =>
    let privBuf := decodeArg C privateKey
    let derivedPub := C.edPubOfSecret privBuf
    match publicKey? with
    | some publicKey =>
      if decodeArg C publicKey ≠ derivedPub then .error pubPrivMismatchMsg
      else .ok (.ed derivedPub (some privBuf))
    | none => .ok (.ed derivedPub (some privBuf))
  | some publicKey, none =>
    let pubBuf := decodeArg C publicKey
    if pubBuf.length ≠ 32 then
      .error "Invalid Ed25519 public key. Must be a 32-byte value."
    else .ok (.ed pubBuf none)

/-- `new ECDSASecp256k1Key(publicKey?, privateKey?)`. With a private key
the compressed public point is derived via `ec.keyFromPrivate`; with only
a public key, `ec.keyFromPublic` must accept it. -/
def mkECDSASecp256k1Key (C : Crypto) (fresh : Bytes × Bytes) :
    Option KeyArg → Option KeyArg → Except String Underlying
  | none, none => .ok (.ec fresh.1 (some fresh.2))
  | publicKey?, some privateKey =>
    let privBuf := decodeArg C privateKey
    let derivedPub := C.ecPubOfSecret privBuf
    match publicKey? with
    | some publicKey =>
      if decodeArg C publicKey ≠ derivedPub then .error pubPrivMismatchMsg
      else .ok (.ec derivedPub (some privBuf))
    | none => .ok (.ec derivedPub (some privBuf))
  | some publicKey, none =>
    let pubBuf := decodeArg C publicKey
    if C.ecPubValid pubBuf then .ok (.ec pubBuf none)
    else .error "Invalid ECDSASecp256k1Key public key."

/-- `new RSAKey(publicKey?, privateKey?)`. After the PEM type checks the
two strings are stored as-is: the constructor performs no
public/private correspondence check. -/
def mkRSAKey (fresh : String × String) :
    Option String → Option String → Except String Underlying
  | none, none => .ok (.rsa (some fresh.1) (some fresh.2))
  | publicKey?, privateKey? => .ok (.rsa publicKey? privateKey?)

/-- Encoded public key exposed by the adapter (`publicKey` getter):
base58 of the verifying key for Ed25519/ECDSA, the PEM string for RSA. -/
def Underlying.publicKeyStr (C : Crypto) : Underlying → Option String
  | .ed v _ => some (C.b58enc v)
  | .ec v _ => some (C.b58enc v)
  | .rsa v _ => v

/-- Encoded private key exposed by the adapter (`privateKey` getter). -/
def Underlying.privateKeyStr (C : Crypto) : Underlying → Option String
  | .ed _ s => s.map C.b58enc
  | .ec _ s => s.map C.b58enc
  | .rsa _ s => s

def Underlying.hasSigningKey : Underlying → Bool
  | .ed _ s => s.isSome
  | .ec _ s => s.isSome
  | .rsa _ s => s.isSome

/-- The fixed on-chain field name of the adapter
(`publicKeyBase58` for Ed25519/ECDSA, `publicKeyPem` for RSA). -/
def Underlying.onChainPubKeyName : Underlying → String
  | .ed _ _ => "publicKeyBase58"
  | .ec _ _ => "publicKeyBase58"
  | .rsa _ _ => "publicKeyPem"

/-- `sign(message)`. Ed25519/ECDSA hash the message with SHA-256 before
handing the digest to the primitive; RSA's `createSign('SHA256')` hashes
internally (so the raw message is handed over). -/
def Underlying.sign (C : Crypto) (message : Bytes) : Underlying → Except String Bytes
  | .ed _ none => .error "Private key is not set."
  | .ed _ (some sk) => .ok (C.edSign sk (C.sha256 message))
  | .ec _ none => .error "Private key is not set."
  | .ec _ (some sk) => .ok (C.ecSign sk (C.sha256 message))
  | .rsa _ none => .error "Private key is not set."
  | .rsa _ (some sk) => .ok (C.rsaSign sk message)

/-- `rotate()`: requires the signing key and replaces the underlying key
with a freshly generated pair of the same variant
(`new this.underlyingKey.constructor()`). -/
def Underlying.rotate (fresh : FreshKeyMaterial) : Underlying → Except String Underlying
  | .ed _ none => .error "Private key must be set."
  | .ed _ (some _) => .ok (.ed fresh.edPair.1 (some fresh.edPair.2))
  | .ec _ none => .error "Private key must be set."
  | .ec _ (some _) => .ok (.ec fresh.ecPair.1 (some fresh.ecPair.2))
  | .rsa _ none => .error "Private key must be set."
  | .rsa _ (some _) => .ok (.rsa (some fresh.rsaPair.1) (some fresh.rsaPair.2))

/-- Dispatch of `AbstractDIDKey`'s constructor to the variant adapter.
For RSA the arguments are cast to strings (`publicKey as string`); a
buffer argument fails RSA's PEM type check. -/
def mkUnderlying (C : Crypto) (fresh : FreshKeyMaterial) (keyType : KeyType)
    (publicKey? privateKey? : Option KeyArg) : Except String Underlying :=
  match keyType with
  | .edDSA => mkEd25519Key C fresh.edPair publicKey? privateKey?
  | .ecDSA => mkECDSASecp256k1Key C fresh.ecPair publicKey? privateKey?
  | .rsa => do
    let pubStr? ← match publicKey? with
      | none => pure none
      | some (.str s) => pure (some s)
      | some (.buf _) => .error "Public key must be PEM encoded."
    let privStr? ← match privateKey? with
      | none => pure none
      | some (.str s) => pure (some s)
      | some (.buf _) => .error "Private key must be PEM encoded."
    mkRSAKey fresh.rsaPair pubStr? privStr?

/-! ### Key and service entities (`src/keys/abstract`, `src/keys/management`,
`src/keys/did`, `src/service`) -/

structure ManagementKey where
  «alias» : String
  priority : Int
  keyType : KeyType
  controller : String
  priorityRequirement : Option Int
  underlyingKey : Underlying
deriving DecidableEq

structure DIDKey where
  «alias» : String
  purpose : List DIDKeyPurpose
  keyType : KeyType
  controller : String
  priorityRequirement : Option Int
  underlyingKey : Underlying
deriving DecidableEq

structure Service where
  «alias» : String
  serviceType : String
  endpoint : String
  priorityRequirement : Option Int
  customFields : Option (List (String × String))
deriving DecidableEq

/-- `AbstractDIDKey._validateInputParams`. The key type is one of the three
supported variants by construction of `KeyType`. -/
def validateKeyInputParams («alias» : String) (controller : String)
    (priorityRequirement : Option Int) : Except String Unit := do
  if ¬ validAlias «alias» then
    .error "Alias must not be more than 32 characters long and must contain only lower-case letters, digits and hyphens."
  else if ¬ isValidDIDId controller then
    .error "Controller must be a valid DID Id."
  else if ¬ validPriorityRequirement priorityRequirement then
    .error "Priority requirement must be a non-negative integer."
  else
    .ok ()

/-- `new ManagementKey(«alias», priority, keyType, controller,
priorityRequirement?, publicKey?, privateKey?)`: the abstract-key
validations and underlying-key construction run first, then the
non-negative priority check. -/
def mkManagementKey (C : Crypto) (fresh : FreshKeyMaterial) («alias» : String)
    (priority : Int) (keyType : KeyType) (controller : String)
    (priorityRequirement : Option Int)
    (publicKey? privateKey? : Option KeyArg) : Except String ManagementKey := do
  validateKeyInputParams «alias» controller priorityRequirement
  let underlying ← mkUnderlying C fresh keyType publicKey? privateKey?
  if ¬ (0 ≤ priority) then
    .error "Priority must be a non-negative integer."
  else
    .ok ⟨«alias», priority, keyType, controller, priorityRequirement, underlying⟩

/-- `new DIDKey(...)`: abstract-key validations and underlying-key
construction, then the purpose checks (a non-empty duplicate-free list of
size 1 or 2; every element is a valid purpose by construction of
`DIDKeyPurpose`). -/
def mkDIDKey (C : Crypto) (fresh : FreshKeyMaterial) («alias» : String)
    (purpose : List DIDKeyPurpose) (keyType : KeyType) (controller : String)
    (priorityRequirement : Option Int)
    (publicKey? privateKey? : Option KeyArg) : Except String DIDKey := do
  validateKeyInputParams «alias» controller priorityRequirement
  let underlying ← mkUnderlying C fresh keyType publicKey? privateKey?
  if ¬ (purpose.Nodup ∧ (purpose.length = 1 ∨ purpose.length = 2)) then
    .error "Purpose must contain one or both of publicKey and authenticationKey without repeated values"
  else
    .ok ⟨«alias», purpose, keyType, controller, priorityRequirement, underlying⟩

/-- `new Service(«alias», serviceType, endpoint, priorityRequirement?,
customFields?)`. Custom-field values are modelled as strings. -/
def mkService («alias» serviceType endpoint : String)
    (priorityRequirement : Option Int)
    (customFields : Option (List (String × String))) : Except String Service := do
  if ¬ validAlias «alias» then
    .error "Alias must not be more than 32 characters long and must contain only lower-case letters, digits and hyphens."
  else if ¬ validServiceEndpoint endpoint then
    .error "Endpoint must be a valid URL address starting with http:// or https://."
  else if ¬ validPriorityRequirement priorityRequirement then
    .error "Priority requirement must be a non-negative integer."
  else if serviceType.data.length = 0 then
    .error "Service type is required!"
  else
    .ok ⟨«alias», serviceType, endpoint, priorityRequirement, customFields⟩

/-- `` fullId(didId) = `${didId}#${«alias»}` ``. -/
def fullId (didId «alias» : String) : String := didId ++ "#" ++ «alias»

/-! ### On-chain entry objects and their JSON serialization

`toEntryObj` produces a plain map which `JSON.stringify` serializes with
insertion-ordered keys; the serializers below reproduce that order. All
call sites in the library use the default schema version `1.0.0`, for
which `toEntryObj` succeeds, so the entry-object builders are total. -/

structure KeyEntryObj where
  id : String
  type : String
  controller : String
  pubKeyField : String
  pubKeyValue : Option String
  priorityRequirement : Option Int
deriving DecidableEq

structure MgmtEntryObj extends KeyEntryObj where
  priority : Int
deriving DecidableEq

structure DIDKeyEntryObj extends KeyEntryObj where
  purpose : List DIDKeyPurpose
deriving DecidableEq

structure ServiceEntryObj where
  id : String
  type : String
  serviceEndpoint : String
  priorityRequirement : Option Int
  customFields : List (String × String)
deriving DecidableEq

def keyEntryObjOf (C : Crypto) (didId «alias» : String) (keyType : KeyType)
    (controller : String) (priorityRequirement : Option Int)
    (u : Underlying) : KeyEntryObj :=
  ⟨fullId didId «alias», keyType.toStr, controller, u.onChainPubKeyName,
    u.publicKeyStr C, priorityRequirement⟩

/-- `ManagementKey.toEntryObj(didId)`: the abstract entry object plus the
`priority` field, appended last. -/
def ManagementKey.toEntryObj (C : Crypto) (k : ManagementKey) (didId : String) :
    MgmtEntryObj :=
  ⟨keyEntryObjOf C didId k.«alias» k.keyType k.controller k.priorityRequirement
    k.underlyingKey, k.priority⟩

/-- `DIDKey.toEntryObj(didId)`: the abstract entry object plus the
`purpose` field, appended last. -/
def DIDKey.toEntryObj (C : Crypto) (k : DIDKey) (didId : String) : DIDKeyEntryObj :=
  ⟨keyEntryObjOf C didId k.«alias» k.keyType k.controller k.priorityRequirement
    k.underlyingKey, k.purpose⟩

/-- `Service.toEntryObj(didId)`: `id`, `type`, `serviceEndpoint`, optional
`priorityRequirement`, then the custom fields merged flatly. -/
def Service.toEntryObj (s : Service) (didId : String) : ServiceEntryObj :=
  ⟨fullId didId s.«alias», s.serviceType, s.endpoint, s.priorityRequirement,
    s.customFields.getD []⟩

/-- JSON string escaping (quote, backslash, newline; all other characters
appearing in the library's strings serialize verbatim). -/
def jsonEscapeChar (c : Char) : List Char :=
  if c = '"' then ['\\', '"']
  else if c = '\\' then ['\\', '\\']
  else if c = '\n' then ['\\', 'n']
  else [c]

/-- A JSON string literal. -/
def jstr (s : String) : String :=
  String.mk ('"' :: (s.data.map jsonEscapeChar).flatten ++ ['"'])

def jsonLBrace : String := "\x7b"
def jsonRBrace : String := "\x7d"

/-- Comma-join of already-serialized JSON values. -/
def joinComma : List String → String
  | [] => ""
  | [s] => s
  | s :: rest => s ++ "," ++ joinComma rest

/-- A JSON object from already-serialized key/value member strings. -/
def jobj (members : List String) : String :=
  jsonLBrace ++ joinComma members ++ jsonRBrace

/-- A JSON array from already-serialized element strings. -/
def jarr (elems : List String) : String :=
  "[" ++ joinComma elems ++ "]"

def jmember (key value : String) : String := jstr key ++ ":" ++ value

/-- `JSON.stringify` of a key entry object's common fields; a missing
public key (`undefined`) drops its field, as `JSON.stringify` does. -/
def keyEntryObjMembers (o : KeyEntryObj) : List String :=
  [jmember "id" (jstr o.id), jmember "type" (jstr o.type),
    jmember "controller" (jstr o.controller)] ++
  (match o.pubKeyValue with
    | some v => [jmember o.pubKeyField (jstr v)]
    | none => []) ++
  (match o.priorityRequirement with
    | some p => [jmember "priorityRequirement" (toString p)]
    | none => [])

def mgmtEntryObjJson (o : MgmtEntryObj) : String :=
  jobj (keyEntryObjMembers o.toKeyEntryObj ++ [jmember "priority" (toString o.priority)])

def didKeyEntryObjJson (o : DIDKeyEntryObj) : String :=
  jobj (keyEntryObjMembers o.toKeyEntryObj ++
    [jmember "purpose" (jarr (o.purpose.map (fun p => jstr p.toStr)))])

def serviceEntryObjJson (o : ServiceEntryObj) : String :=
  jobj ([jmember "id" (jstr o.id), jmember "type" (jstr o.type),
      jmember "serviceEndpoint" (jstr o.serviceEndpoint)] ++
    (match o.priorityRequirement with
      | some p => [jmember "priorityRequirement" (toString p)]
      | none => []) ++
    o.customFields.map (fun kv => jmember kv.1 (jstr kv.2)))

/-! ### DID aggregate and builder (`src/did`) -/

/-- An entry ready for recording on-chain: extIds plus content bytes. -/
structure EntryData where
  extIds : List Bytes
  content : Bytes
deriving DecidableEq

structure DIDBuilder where
  id : String
  nonce : Option Bytes
  network : Network
  specVersion : Option String
  managementKeys : List ManagementKey
  didKeys : List DIDKey
  services : List Service
  usedKeyAliases : List String
  usedServiceAliases : List String
deriving DecidableEq

/-- `DIDBuilder._generateDIDId()`: the chain id hashes exactly the triple
`[EntryType.Create, ENTRY_SCHEMA_V100, nonce]`, where `nonce` is the
freshly drawn `randomBytes(32)`. -/
def generateDIDId (C : Crypto) (nonce : Bytes) : String :=
  DID_METHOD_NAME ++ ":" ++
    calculateChainId C [utf8 entryTypeCreate, utf8 ENTRY_SCHEMA_V100, nonce]

/-- `DIDBuilder._getNetworkFromId`: with four colon-separated parts the
third (`parts[2]`) is cast to a network; otherwise unspecified. Builder
ids always carry `mainnet`/`testnet` there when they have four parts. -/
def getNetworkFromId (didId : String) : Network :=
  match splitColon didId.data with
  | [_, _, n, _] =>
    if n = "mainnet".data then .mainnet
    else if n = "testnet".data then .testnet
    else .unspecified
  | _ => .unspecified

/-- `DIDBuilder._checkAliasIsUnique`: throws on a duplicate, otherwise
records the «alias» as used. -/
def checkAliasIsUnique (used : List String) (a : String) : Except String (List String) :=
  if a ∈ used then .error ("Duplicate alias \"" ++ a ++ "\" detected.")
  else .ok (used ++ [a])

def checkAliasesUnique (used : List String) : List String → Except String (List String)
  | [] => .ok used
  | a :: rest => do
    let used' ← checkAliasIsUnique used a
    checkAliasesUnique used' rest

/-- `new DIDBuilder(didId?, managementKeys?, didKeys?, services?,
specVersion?)`: a supplied id failing the grammar (or an absent id)
triggers fresh id generation, storing the nonce; then every key and
service «alias» is checked for uniqueness. `freshNonce` stands for `randomBytes(32)`. -/
def mkDIDBuilder (C : Crypto) (freshNonce : Bytes) (didId? : Option String)
    (managementKeys : List ManagementKey) (didKeys : List DIDKey)
    (services : List Service) (specVersion : Option String) :
    Except String DIDBuilder := do
  let (id, nonce) :=
    match didId? with
    | some s =>
      if isValidDIDId s then (s, (none : Option Bytes))
      else (generateDIDId C freshNonce, some freshNonce)
    | none => (generateDIDId C freshNonce, some freshNonce)
  let usedKey ← checkAliasesUnique [] (managementKeys.map (·.«alias»))
  let usedKey ← checkAliasesUnique usedKey (didKeys.map (·.«alias»))
  let usedService ← checkAliasesUnique [] (services.map (·.«alias»))
  .ok ⟨id, nonce, getNetworkFromId id, specVersion, managementKeys, didKeys,
    services, usedKey, usedService⟩

/-- `DID.builder(...)` with its `specVersion` default. -/
def didBuilderDefault (C : Crypto) (freshNonce : Bytes) (didId? : Option String)
    (managementKeys : List ManagementKey) (didKeys : List DIDKey)
    (services : List Service) : Except String DIDBuilder :=
  mkDIDBuilder C freshNonce didId? managementKeys didKeys services
    (some DID_METHOD_SPEC_V020)

/-- `DIDBuilder.managementKey(«alias», priority, keyType = EdDSA,
controller?, priorityRequirement?)`: the controller defaults to the
builder's own id; the constructed key is checked for «alias» uniqueness and
appended. `fresh` stands for the generated key pair. -/
def DIDBuilder.managementKeyOp (C : Crypto) (b : DIDBuilder)
    (fresh : FreshKeyMaterial) (a : String) (priority : Int)
    (keyType : KeyType) (controller? : Option String)
    (priorityRequirement : Option Int) : Except String DIDBuilder := do
  let controller := controller?.getD b.id
  let key ← mkManagementKey C fresh a priority keyType controller
    priorityRequirement none none
  let used ← checkAliasIsUnique b.usedKeyAliases key.«alias»
  .ok { b with managementKeys := b.managementKeys ++ [key], usedKeyAliases := used }

/-- `DIDBuilder.didKey(«alias», purpose, keyType = EdDSA, controller?,
priorityRequirement?)`. -/
def DIDBuilder.didKeyOp (C : Crypto) (b : DIDBuilder) (fresh : FreshKeyMaterial)
    (a : String) (purpose : List DIDKeyPurpose) (keyType : KeyType)
    (controller? : Option String) (priorityRequirement : Option Int) :
    Except String DIDBuilder := do
  let controller := controller?.getD b.id
  let key ← mkDIDKey C fresh a purpose keyType controller
    priorityRequirement none none
  let used ← checkAliasIsUnique b.usedKeyAliases key.«alias»
  .ok { b with didKeys := b.didKeys ++ [key], usedKeyAliases := used }

/-- `DIDBuilder.service(«alias», serviceType, endpoint,
priorityRequirement?, customFields?)`. -/
def DIDBuilder.serviceOp (b : DIDBuilder) (a serviceType endpoint : String)
    (priorityRequirement : Option Int)
    (customFields : Option (List (String × String))) : Except String DIDBuilder := do
  let svc ← mkService a serviceType endpoint priorityRequirement customFields
  let used ← checkAliasIsUnique b.usedServiceAliases svc.«alias»
  .ok { b with services := b.services ++ [svc], usedServiceAliases := used }

/-- The frozen snapshot produced by `DIDBuilder.build()`. -/
structure DID where
  id : String
  nonce : Option Bytes
  network : Network
  specVersion : Option String
  managementKeys : List ManagementKey
  didKeys : List DIDKey
  services : List Service
deriving DecidableEq

def DIDBuilder.build (b : DIDBuilder) : DID :=
  ⟨b.id, b.nonce, b.network, b.specVersion, b.managementKeys, b.didKeys, b.services⟩

/-- `DID._buildDIDDocument()` serialized by `JSON.stringify`:
`didMethodVersion` (dropped when the builder had no spec version, as
`JSON.stringify` drops `undefined` members), `managementKey`, and
`didKey`/`service` only when non-empty. -/
def didDocumentJson (C : Crypto) (d : DID) : String :=
  jobj ((match d.specVersion with
      | some v => [jmember "didMethodVersion" (jstr v)]
      | none => []) ++
    [jmember "managementKey"
      (jarr (d.managementKeys.map (fun k => mgmtEntryObjJson (k.toEntryObj C d.id))))] ++
    (if d.didKeys.length > 0 then
      [jmember "didKey"
        (jarr (d.didKeys.map (fun k => didKeyEntryObjJson (k.toEntryObj C d.id))))]
     else []) ++
    (if d.services.length > 0 then
      [jmember "service"
        (jarr (d.services.map (fun s => serviceEntryObjJson (s.toEntryObj d.id))))]
     else []))

/-- `DID.exportEntryData()`: requires at least one management key and one
with priority 0; extIds are the create tag, the schema tag and the nonce;
the size ceiling is enforced. A builder constructed from a supplied valid
id has no nonce, and `this.nonce as Buffer` is then `undefined`, so
`calculateEntrySize` throws a `TypeError` reading its `byteLength`;
that failure is modelled as the error below. -/
def DID.exportEntryData (C : Crypto) (d : DID) : Except String EntryData :=
  if d.managementKeys.length < 1 then
    .error "The DID must have at least one management key."
  else if ¬ d.managementKeys.any (fun mk => mk.priority = 0) then
    .error "At least one management key must have priority 0."
  else
    let content := utf8 (didDocumentJson C d)
    match d.nonce with
    | some nonce =>
      let extIds := [utf8 entryTypeCreate, utf8 ENTRY_SCHEMA_V100, nonce]
      if calculateEntrySize extIds content > ENTRY_SIZE_LIMIT then
        .error "You have exceeded the entry size limit! Please remove some of your keys or services."
      else
        .ok ⟨extIds, content⟩
    | none =>
      .error "TypeError: Cannot read properties of undefined (reading byteLength)"

/-! ### Update protocol (`src/updater`) -/

/-- `DIDUpdater`: a builder plus snapshots of its three collections taken
at construction time, and the buffer of pending DID-key purpose
revocations — a JS object keyed by «alias», so an insertion-ordered
association list with in-place overwrite. -/
structure DIDUpdater where
  didBuilder : DIDBuilder
  originalManagementKeys : List ManagementKey
  originalDIDKeys : List DIDKey
  originalServices : List Service
  didKeyPurposesToRevoke : List (String × DIDKeyPurpose)
deriving DecidableEq

/-- `DIDBuilder.update()`. -/
def DIDBuilder.update (b : DIDBuilder) : Except String DIDUpdater :=
  if b.managementKeys.length = 0 then
    .error "Cannot update DID without management keys."
  else
    .ok ⟨b, b.managementKeys, b.didKeys, b.services, []⟩

/-- JS object property write `obj[key] = value`: overwrite in place,
preserving first-insertion order, else append. -/
def setAssoc (l : List (String × DIDKeyPurpose)) (a : String) (p : DIDKeyPurpose) :
    List (String × DIDKeyPurpose) :=
  match l with
  | [] => [(a, p)]
  | (k, v) :: rest => if k = a then (k, p) :: rest else (k, v) :: setAssoc rest a p

def lookupAssoc (l : List (String × DIDKeyPurpose)) (a : String) :
    Option DIDKeyPurpose :=
  match l with
  | [] => none
  | (k, v) :: rest => if k = a then some v else lookupAssoc rest a

/-- One step of the `didKeys` getter: a buffered key is replaced by a
freshly constructed key with the complementary purpose and the same
encoded key material (which the `DIDKey` constructor re-decodes and
re-derives); other keys pass through. -/
def didKeysViewStep (C : Crypto) (buffer : List (String × DIDKeyPurpose))
    (acc : List DIDKey) (key : DIDKey) : Except String (List DIDKey) :=
  match lookupAssoc buffer key.«alias» with
  | some revokedPurpose =>
    let remainingPurpose :=
      if revokedPurpose = DIDKeyPurpose.publicKey then
        DIDKeyPurpose.authenticationKey
      else DIDKeyPurpose.publicKey
    do
      let replacement ← mkDIDKey C emptyFresh key.«alias» [remainingPurpose]
        key.keyType key.controller key.priorityRequirement
        ((key.underlyingKey.publicKeyStr C).map KeyArg.str)
        ((key.underlyingKey.privateKeyStr C).map KeyArg.str)
      .ok (acc ++ [replacement])
  | none => .ok (acc ++ [key])

/-- The `didKeys` getter: the builder's DID keys with pending purpose
revocations applied lazily on every read. -/
def DIDUpdater.didKeysView (C : Crypto) (u : DIDUpdater) : Except String (List DIDKey) :=
  u.didBuilder.didKeys.foldlM (didKeysViewStep C u.didKeyPurposesToRevoke) []

/-- `DIDUpdater.addManagementKey` (pass-through to the builder). -/
def DIDUpdater.addManagementKey (C : Crypto) (u : DIDUpdater)
    (fresh : FreshKeyMaterial) (a : String) (priority : Int) (keyType : KeyType)
    (controller? : Option String) (priorityRequirement : Option Int) :
    Except String DIDUpdater := do
  let b ← u.didBuilder.managementKeyOp C fresh a priority keyType controller?
    priorityRequirement
  .ok { u with didBuilder := b }

/-- `DIDUpdater.addDIDKey` (pass-through to the builder). -/
def DIDUpdater.addDIDKey (C : Crypto) (u : DIDUpdater) (fresh : FreshKeyMaterial)
    (a : String) (purpose : List DIDKeyPurpose) (keyType : KeyType)
    (controller? : Option String) (priorityRequirement : Option Int) :
    Except String DIDUpdater := do
  let b ← u.didBuilder.didKeyOp C fresh a purpose keyType controller?
    priorityRequirement
  .ok { u with didBuilder := b }

/-- `DIDUpdater.addService` (pass-through to the builder). -/
def DIDUpdater.addService (u : DIDUpdater) (a serviceType endpoint : String)
    (priorityRequirement : Option Int)
    (customFields : Option (List (String × String))) : Except String DIDUpdater := do
  let b ← u.didBuilder.serviceOp a serviceType endpoint priorityRequirement
    customFields
  .ok { u with didBuilder := b }

/-- `DIDUpdater.revokeManagementKey(«alias»)`: filter by «alias». -/
def DIDUpdater.revokeManagementKey (u : DIDUpdater) (a : String) : DIDUpdater :=
  { u with didBuilder :=
      { u.didBuilder with
        managementKeys := u.didBuilder.managementKeys.filter (fun k => k.«alias» ≠ a) } }

/-- `DIDUpdater.revokeDIDKey(«alias»)`: filter by «alias». -/
def DIDUpdater.revokeDIDKey (u : DIDUpdater) (a : String) : DIDUpdater :=
  { u with didBuilder :=
      { u.didBuilder with
        didKeys := u.didBuilder.didKeys.filter (fun k => k.«alias» ≠ a) } }

/-- `DIDUpdater.revokeService(«alias»)`: filter by «alias». -/
def DIDUpdater.revokeService (u : DIDUpdater) (a : String) : DIDUpdater :=
  { u with didBuilder :=
      { u.didBuilder with
        services := u.didBuilder.services.filter (fun s => s.«alias» ≠ a) } }

/-- `DIDUpdater.revokeDIDKeyPurpose(«alias», purpose)`: looks the key up in
the builder's (un-overlaid) DID keys; a missing key or purpose is a no-op;
a single-purpose key is fully revoked; a two-purpose key gets a buffered
purpose revocation keyed by «alias». The purpose argument is a valid
purpose by construction of `DIDKeyPurpose`. -/
def DIDUpdater.revokeDIDKeyPurpose (u : DIDUpdater) (a : String)
    (purpose : DIDKeyPurpose) : DIDUpdater :=
  match u.didBuilder.didKeys.find? (fun k => k.«alias» = a) with
  | none => u
  | some didKey =>
    if purpose ∉ didKey.purpose then u
    else if didKey.purpose.length = 1 then u.revokeDIDKey a
    else { u with didKeyPurposesToRevoke := setAssoc u.didKeyPurposesToRevoke a purpose }

/-- `DIDUpdater.rotateManagementKey(«alias»)`: clone the found key, rotate
the clone's underlying key pair to the fresh one, and move it to the end
of the list (filter then push). -/
def DIDUpdater.rotateManagementKey (u : DIDUpdater) (fresh : FreshKeyMaterial)
    (a : String) : Except String DIDUpdater :=
  match u.didBuilder.managementKeys.find? (fun k => k.«alias» = a) with
  | none => .ok u
  | some managementKey => do
    let rotated ← managementKey.underlyingKey.rotate fresh
    let clone := { managementKey with underlyingKey := rotated }
    .ok { u with didBuilder :=
      { u.didBuilder with
        managementKeys :=
          u.didBuilder.managementKeys.filter (fun k => k.«alias» ≠ a) ++ [clone] } }

/-- `DIDUpdater.rotateDIDKey(«alias»)`. -/
def DIDUpdater.rotateDIDKey (u : DIDUpdater) (fresh : FreshKeyMaterial)
    (a : String) : Except String DIDUpdater :=
  match u.didBuilder.didKeys.find? (fun k => k.«alias» = a) with
  | none => .ok u
  | some didKey => do
    let rotated ← didKey.underlyingKey.rotate fresh
    let clone := { didKey with underlyingKey := rotated }
    .ok { u with didBuilder :=
      { u.didBuilder with
        didKeys :=
          u.didBuilder.didKeys.filter (fun k => k.«alias» ≠ a) ++ [clone] } }

/-! The diff: `_getNew` keeps the current entities whose `JSON.stringify`
form is absent from the original snapshot, `_getRevoked` the original
entities absent from the current collection. `JSON.stringify` equality on
entity instances is value equality of all fields including key material,
modelled as structural equality (spec §9, structural-equality diffing).
The `requiredPriorityForUpdate` computations feed only the block of
source code that is commented out ("Currently unreachable code!") and are
omitted. -/

def getNewMgmtKeys (C : Crypto) (didId : String)
    (original current : List ManagementKey) : List MgmtEntryObj :=
  (current.filter (fun k => ¬ decide (k ∈ original))).map
    (fun k => k.toEntryObj C didId)

def getNewDIDKeys (C : Crypto) (didId : String)
    (original current : List DIDKey) : List DIDKeyEntryObj :=
  (current.filter (fun k => ¬ decide (k ∈ original))).map
    (fun k => k.toEntryObj C didId)

def getNewServices (didId : String)
    (original current : List Service) : List ServiceEntryObj :=
  (current.filter (fun s => ¬ decide (s ∈ original))).map
    (fun s => s.toEntryObj didId)

/-- A member of the revoke object: `{id}`, or `{id, purpose: [p]}` for a
purpose revocation. -/
structure RevokeEntry where
  id : String
  purpose : Option (List DIDKeyPurpose)
deriving DecidableEq

def getRevokedMgmtKeys (didId : String)
    (original current : List ManagementKey) : List RevokeEntry :=
  (original.filter (fun k => ¬ decide (k ∈ current))).map
    (fun k => ⟨fullId didId k.«alias», none⟩)

def getRevokedDIDKeys (didId : String)
    (original current : List DIDKey) : List RevokeEntry :=
  (original.filter (fun k => ¬ decide (k ∈ current))).map
    (fun k => ⟨fullId didId k.«alias», none⟩)

def getRevokedServices (didId : String)
    (original current : List Service) : List RevokeEntry :=
  (original.filter (fun s => ¬ decide (s ∈ current))).map
    (fun s => ⟨fullId didId s.«alias», none⟩)

/-- `_constructAddObject`: a field is present only when its list is
non-empty. -/
structure AddObject where
  managementKey : Option (List MgmtEntryObj)
  didKey : Option (List DIDKeyEntryObj)
  service : Option (List ServiceEntryObj)
deriving DecidableEq

def constructAddObject (newManagementKeys : List MgmtEntryObj)
    (newDidKeys : List DIDKeyEntryObj) (newServices : List ServiceEntryObj) :
    AddObject :=
  ⟨if newManagementKeys.length > 0 then some newManagementKeys else none,
    if newDidKeys.length > 0 then some newDidKeys else none,
    if newServices.length > 0 then some newServices else none⟩

/-- `Object.keys(addObject).length === 0`. -/
def AddObject.isEmpty (a : AddObject) : Bool :=
  a.managementKey.isNone && a.didKey.isNone && a.service.isNone

/-- `_constructRevokeObject`. -/
structure RevokeObject where
  managementKey : Option (List RevokeEntry)
  didKey : Option (List RevokeEntry)
  service : Option (List RevokeEntry)
deriving DecidableEq

def constructRevokeObject (revokedManagementKeys revokedDidKeys revokedServices :
    List RevokeEntry) : RevokeObject :=
  ⟨if revokedManagementKeys.length > 0 then some revokedManagementKeys else none,
    if revokedDidKeys.length > 0 then some revokedDidKeys else none,
    if revokedServices.length > 0 then some revokedServices else none⟩

def RevokeObject.isEmpty (r : RevokeObject) : Bool :=
  r.managementKey.isNone && r.didKey.isNone && r.service.isNone

/-- The loop appending the buffered purpose revocations to the revoke
object's `didKey` member (creating it when absent). -/
def appendPurposeRevocations (didId : String) (ro : RevokeObject)
    (buffer : List (String × DIDKeyPurpose)) : RevokeObject :=
  buffer.foldl
    (fun ro entry =>
      { ro with didKey := some ((ro.didKey.getD []) ++
          [⟨fullId didId entry.1, some [entry.2]⟩]) })
    ro

def revokeEntryJson (e : RevokeEntry) : String :=
  jobj ([jmember "id" (jstr e.id)] ++
    (match e.purpose with
      | some ps => [jmember "purpose" (jarr (ps.map (fun p => jstr p.toStr)))]
      | none => []))

def addObjectJson (a : AddObject) : String :=
  jobj ((match a.managementKey with
      | some l => [jmember "managementKey" (jarr (l.map mgmtEntryObjJson))]
      | none => []) ++
    (match a.didKey with
      | some l => [jmember "didKey" (jarr (l.map didKeyEntryObjJson))]
      | none => []) ++
    (match a.service with
      | some l => [jmember "service" (jarr (l.map serviceEntryObjJson))]
      | none => []))

def revokeObjectJson (r : RevokeObject) : String :=
  jobj ((match r.managementKey with
      | some l => [jmember "managementKey" (jarr (l.map revokeEntryJson))]
      | none => []) ++
    (match r.didKey with
      | some l => [jmember "didKey" (jarr (l.map revokeEntryJson))]
      | none => []) ++
    (match r.service with
      | some l => [jmember "service" (jarr (l.map revokeEntryJson))]
      | none => []))

/-- `JSON.stringify(updateEntryContent)`: `add` and `revoke` members in
insertion order, each present only when non-empty. -/
def updateEntryContentJson (a : AddObject) (r : RevokeObject) : String :=
  jobj ((if ¬ a.isEmpty then [jmember "add" (addObjectJson a)] else []) ++
    (if ¬ r.isEmpty then [jmember "revoke" (revokeObjectJson r)] else []))

/-- `array.sort((a, b) => a.priority - b.priority)[0]`: V8's sort is
stable, so this is the first key of numerically smallest priority. -/
def selectSigningKey : List ManagementKey → Option ManagementKey
  | [] => none
  | k :: ks => some (ks.foldl (fun m k' => if k'.priority < m.priority then k' else m) k)

/-- The update entry's computed parts before the final size check: the
priority-zero invariant check, the diff, the no-op check, the signature
over the SHA-256 digest of the concatenated tag, schema version, signing
key id and content, and the four extIds. The signing key is drawn from
the snapshot taken at updater construction. -/
def DIDUpdater.updateEntryParts (C : Crypto) (u : DIDUpdater) :
    Except String EntryData :=
  if ¬ u.didBuilder.managementKeys.any (fun k => k.priority = 0) then
    .error "DIDUpdate entry would leave no management keys of priority zero."
  else
    let didId := u.didBuilder.id
    let newMgmtKeys := getNewMgmtKeys C didId u.originalManagementKeys
      u.didBuilder.managementKeys
    let newDIDKeys := getNewDIDKeys C didId u.originalDIDKeys u.didBuilder.didKeys
    let newServices := getNewServices didId u.originalServices u.didBuilder.services
    let revokedMgmtKeys := getRevokedMgmtKeys didId u.originalManagementKeys
      u.didBuilder.managementKeys
    let revokedDIDKeys := getRevokedDIDKeys didId u.originalDIDKeys
      u.didBuilder.didKeys
    let revokedServices := getRevokedServices didId u.originalServices
      u.didBuilder.services
    let addObject := constructAddObject newMgmtKeys newDIDKeys newServices
    let revokeObject := appendPurposeRevocations didId
      (constructRevokeObject revokedMgmtKeys revokedDIDKeys revokedServices)
      u.didKeyPurposesToRevoke
    if addObject.isEmpty ∧ revokeObject.isEmpty then
      .error "The are no changes made to the DID."
    else
      match selectSigningKey u.originalManagementKeys with
      | none =>
        .error "TypeError: Cannot read properties of undefined (reading fullId)"
      | some signingKey => do
        let signingKeyId := fullId didId signingKey.«alias»
        let entryContent := updateEntryContentJson addObject revokeObject
        let dataToSign := entryTypeUpdate ++ ENTRY_SCHEMA_V100 ++ signingKeyId ++
          entryContent
        let signature ← signingKey.underlyingKey.sign C (C.sha256 (utf8 dataToSign))
        .ok ⟨[utf8 entryTypeUpdate, utf8 ENTRY_SCHEMA_V100, utf8 signingKeyId,
          signature], utf8 entryContent⟩

/-- `DIDUpdater.exportEntryData()`: the computed parts, gated by the entry
size ceiling. -/
def DIDUpdater.exportEntryData (C : Crypto) (u : DIDUpdater) :
    Except String EntryData := do
  let parts ← u.updateEntryParts C
  if calculateEntrySize parts.extIds parts.content > ENTRY_SIZE_LIMIT then
    .error "You have exceeded the entry size limit!"
  else
    .ok parts

/-! ### Deactivation (`src/deactivator`) -/

structure DIDDeactivator where
  didBuilder : DIDBuilder
  signingKey : ManagementKey
deriving DecidableEq

/-- `new DIDDeactivator(didBuilder)`: immediately selects the
lowest-priority management key and fails when its priority is not 0.
On an empty key list `sort(...)[0]` is `undefined` and reading its
`priority` throws a `TypeError` (never reached through
`DIDBuilder.deactivate`). -/
def mkDIDDeactivator (b : DIDBuilder) : Except String DIDDeactivator :=
  match selectSigningKey b.managementKeys with
  | none => .error "TypeError: Cannot read properties of undefined (reading priority)"
  | some signingKey =>
    if signingKey.priority ≠ 0 then
      .error "Deactivation of a DID requires the availability of a management key with priority 0."
    else
      .ok ⟨b, signingKey⟩

/-- `DIDBuilder.deactivate()`. -/
def DIDBuilder.deactivate (b : DIDBuilder) : Except String DIDDeactivator :=
  if b.managementKeys.length = 0 then
    .error "Cannot deactivate DID without a management key of priority 0."
  else
    mkDIDDeactivator b

/-- `DIDDeactivator.exportEntryData()`: signs the SHA-256 digest of
tag ++ schema ++ signing-key id (no content); the content is empty.
No size check is performed. -/
def DIDDeactivator.exportEntryData (C : Crypto) (d : DIDDeactivator) :
    Except String EntryData := do
  let signingKeyId := fullId d.didBuilder.id d.signingKey.«alias»
  let dataToSign := entryTypeDeactivation ++ ENTRY_SCHEMA_V100 ++ signingKeyId
  let signature ← d.signingKey.underlyingKey.sign C (C.sha256 (utf8 dataToSign))
  .ok ⟨[utf8 entryTypeDeactivation, utf8 ENTRY_SCHEMA_V100, utf8 signingKeyId,
    signature], []⟩

/-! ### Version upgrade (`src/upgrader`) -/

def digitsToNat (l : List Char) : Nat :=
  l.foldl (fun acc c => acc * 10 + (c.toNat - 48)) 0

def takeDigits (l : List Char) : List Char × List Char :=
  match l with
  | [] => ([], [])
  | c :: cs =>
    if 48 ≤ c.toNat ∧ c.toNat ≤ 57 then
      let (d, r) := takeDigits cs
      (c :: d, r)
    else ([], l)

/-- JS `parseFloat` restricted to the version strings this library
handles: leading digits, an optional fraction, everything after a second
dot ignored (so `parseFloat('0.2.0') = 0.2`); no numeric prefix is `NaN`
(`none`). The value is mantissa and number of fraction digits. -/
def jsParseFloat (s : String) : Option (Nat × Nat) :=
  let (intDigits, rest) := takeDigits s.data
  match rest with
  | '.' :: rest2 =>
    let (fracDigits, _) := takeDigits rest2
    if intDigits = [] ∧ fracDigits = [] then none
    else some (digitsToNat intDigits * 10 ^ fracDigits.length +
      digitsToNat fracDigits, fracDigits.length)
  | _ =>
    if intDigits = [] then none
    else some (digitsToNat intDigits, 0)

/-- `x <= y` on `parseFloat` results: false when either is `NaN`. -/
def floatLE (x y : Option (Nat × Nat)) : Bool :=
  match x, y with
  | some (m1, d1), some (m2, d2) => m1 * 10 ^ d2 ≤ m2 * 10 ^ d1
  | _, _ => false

structure DIDVersionUpgrader where
  didBuilder : DIDBuilder
  newSpecVersion : String
deriving DecidableEq

/-- `new DIDVersionUpgrader(didBuilder, newSpecVersion)`: fails when the
new version is absent (the empty string models a falsy argument) or not
strictly greater numerically than the builder's version. -/
def mkDIDVersionUpgrader (b : DIDBuilder) (newSpecVersion : String) :
    Except String DIDVersionUpgrader :=
  if newSpecVersion = "" ∨
      floatLE (jsParseFloat newSpecVersion) (jsParseFloat (b.specVersion.getD "")) then
    .error "New version must be an upgrade on old version"
  else
    .ok ⟨b, newSpecVersion⟩

/-- `DIDBuilder.upgradeSpecVersion(newSpecVersion)`. -/
def DIDBuilder.upgradeSpecVersion (b : DIDBuilder) (newSpecVersion : String) :
    Except String DIDVersionUpgrader :=
  if b.managementKeys.length = 0 then
    .error "Cannot upgrade method spec version for DID without management keys."
  else
    mkDIDVersionUpgrader b newSpecVersion

/-- `DIDVersionUpgrader.exportEntryData()`: signs with the
lowest-priority management key of the builder's current set; the content
is `{"didMethodVersion": newVersion}`. No size check is performed. -/
def DIDVersionUpgrader.exportEntryData (C : Crypto) (up : DIDVersionUpgrader) :
    Except String EntryData :=
  match selectSigningKey up.didBuilder.managementKeys with
  | none => .error "TypeError: Cannot read properties of undefined (reading fullId)"
  | some signingKey => do
    let signingKeyId := fullId up.didBuilder.id signingKey.«alias»
    let entryContent := jobj [jmember "didMethodVersion" (jstr up.newSpecVersion)]
    let dataToSign := entryTypeVersionUpgrade ++ ENTRY_SCHEMA_V100 ++
      signingKeyId ++ entryContent
    let signature ← signingKey.underlyingKey.sign C (C.sha256 (utf8 dataToSign))
    .ok ⟨[utf8 entryTypeVersionUpgrade, utf8 ENTRY_SCHEMA_V100, utf8 signingKeyId,
      signature], utf8 entryContent⟩

/-! ### Updater operation sequences

Mutating operations available on a `DIDUpdater`, for claims quantifying
over arbitrary operation sequences. Fresh key material drawn by key
generation or rotation is carried by each operation. -/

inductive UpdaterOp where
  | addMgmt (fresh : FreshKeyMaterial) (a : String) (priority : Int)
      (keyType : KeyType) (controller? : Option String) (prioReq : Option Int)
  | addDid (fresh : FreshKeyMaterial) (a : String) (purpose : List DIDKeyPurpose)
      (keyType : KeyType) (controller? : Option String) (prioReq : Option Int)
  | addSvc (a serviceType endpoint : String) (prioReq : Option Int)
      (customFields : Option (List (String × String)))
  | revokeMgmt (a : String)
  | revokeDid (a : String)
  | revokeSvc (a : String)
  | revokeDidPurpose (a : String) (p : DIDKeyPurpose)
  | rotateMgmt (fresh : FreshKeyMaterial) (a : String)
  | rotateDid (fresh : FreshKeyMaterial) (a : String)

def applyOp (C : Crypto) (u : DIDUpdater) : UpdaterOp → Except String DIDUpdater
  | .addMgmt fresh a priority keyType controller? prioReq =>
    u.addManagementKey C fresh a priority keyType controller? prioReq
  | .addDid fresh a purpose keyType controller? prioReq =>
    u.addDIDKey C fresh a purpose keyType controller? prioReq
  | .addSvc a serviceType endpoint prioReq customFields =>
    u.addService a serviceType endpoint prioReq customFields
  | .revokeMgmt a => .ok (u.revokeManagementKey a)
  | .revokeDid a => .ok (u.revokeDIDKey a)
  | .revokeSvc a => .ok (u.revokeService a)
  | .revokeDidPurpose a p => .ok (u.revokeDIDKeyPurpose a p)
  | .rotateMgmt fresh a => u.rotateManagementKey fresh a
  | .rotateDid fresh a => u.rotateDIDKey fresh a

def runOps (C : Crypto) (u : DIDUpdater) (ops : List UpdaterOp) :
    Except String DIDUpdater :=
  ops.foldlM (applyOp C) u

/-! ### A concrete collaborator instantiation and fixtures

`trivialCrypto` is a computable stand-in for the external primitives,
used to evaluate the embedding on concrete inputs; the theorems about the
library quantify over every `Crypto`. -/

def splitComma : List Char → List (List Char)
  | [] => [[]]
  | c :: cs =>
    if c = ',' then [] :: splitComma cs
    else
      match splitComma cs with
      | [] => [[c]]
      | g :: gs => (c :: g) :: gs

def trivialCrypto : Crypto where
  sha256 := fun l => List.replicate 31 0 ++ [l.length % 256]
  b58enc := fun b => String.intercalate "," (b.map toString)
  b58dec := fun s => if s = "" then [] else (splitComma s.data).map digitsToNat
  edPubOfSecret := fun sk => sk.drop 32
  ecPubOfSecret := fun sk => 2 :: sk.take 32
  ecPubValid := fun b => b.length = 33
  rsaPubOfPriv := fun s => "PUBLIC-OF(" ++ s ++ ")"
  edSign := fun _ _ => List.replicate 64 1
  ecSign := fun _ _ => List.replicate 70 2
  rsaSign := fun _ _ => List.replicate 256 3

def demoChainId : String := String.mk (List.replicate 64 'a')

def demoDidId : String := DID_METHOD_NAME ++ ":" ++ demoChainId

/-- A 64-byte Ed25519 expanded secret key fixture. -/
def demoSecret : Bytes := List.range 64

def demoUnderlying : Underlying := .ed (demoSecret.drop 32) (some demoSecret)

def demoMgmtKey : ManagementKey :=
  ⟨"my-key-1", 0, .edDSA, demoDidId, none, demoUnderlying⟩

def demoBuilder : DIDBuilder :=
  ⟨demoDidId, none, .unspecified, some DID_METHOD_SPEC_V020, [demoMgmtKey],
    [], [], ["my-key-1"], []⟩

def demoUpdater : DIDUpdater :=
  ⟨demoBuilder, [demoMgmtKey], [], [], []⟩

/-- The purpose kept when the other one of a two-purpose key is revoked
(`revokedPurpose === PublicKey ? AuthenticationKey : PublicKey`). -/
def purposeComplement (p : DIDKeyPurpose) : DIDKeyPurpose :=
  if p = DIDKeyPurpose.publicKey then DIDKeyPurpose.authenticationKey
  else DIDKeyPurpose.publicKey

/-- Well-formedness of a key entity as produced by the library's own
constructors: validated fields, an underlying variant matching the
declared key type, encoded key material that round-trips through the
base58/PEM codec, and a verifying key that matches the signing key. -/
def wellFormedKeyB (C : Crypto) (a controller : String) (pr : Option Int)
    (kt : KeyType) (u : Underlying) : Bool :=
  validAlias a && isValidDIDId controller && validPriorityRequirement pr &&
  (match kt, u with
    | .edDSA, .ed v s? =>
      (match s? with
        | some s =>
          decide (C.b58dec (C.b58enc s) = s) && decide (C.b58dec (C.b58enc v) = v) &&
            decide (C.edPubOfSecret s = v)
        | none => decide (C.b58dec (C.b58enc v) = v) && decide (v.length = 32))
    | .ecDSA, .ec v s? =>
      (match s? with
        | some s =>
          decide (C.b58dec (C.b58enc s) = s) && decide (C.b58dec (C.b58enc v) = v) &&
            decide (C.ecPubOfSecret s = v)
        | none => decide (C.b58dec (C.b58enc v) = v) && C.ecPubValid v)
    | .rsa, .rsa v? s? => v?.isSome || s?.isSome
    | _, _ => false)

def DIDKey.wellFormed (C : Crypto) (k : DIDKey) : Bool :=
  wellFormedKeyB C k.«alias» k.controller k.priorityRequirement k.keyType
    k.underlyingKey

/-- The value of the lazy `didKeys` view at one key: a buffered purpose
revocation replaces the key's purposes by the complementary one. -/
def viewKey (buffer : List (String × DIDKeyPurpose)) (key : DIDKey) : DIDKey :=
  match lookupAssoc buffer key.«alias» with
  | some revokedPurpose => { key with purpose := [purposeComplement revokedPurpose] }
  | none => key

/-! Further fixtures for evaluating the claims on concrete inputs. -/

def demoMgmtKeyP1 : ManagementKey :=
  ⟨"my-key-1", 1, .edDSA, demoDidId, none, demoUnderlying⟩

def demoBuilderP1 : DIDBuilder :=
  ⟨demoDidId, none, .unspecified, some DID_METHOD_SPEC_V020, [demoMgmtKeyP1],
    [], [], ["my-key-1"], []⟩

def demoUpdaterP1 : DIDUpdater :=
  ⟨demoBuilderP1, [demoMgmtKeyP1], [], [], []⟩

/-- A two-purpose Ed25519 application key fixture. -/
def demoDIDKey : DIDKey :=
  ⟨"did-key-1", [.publicKey, .authenticationKey], .edDSA, demoDidId, none,
    demoUnderlying⟩

/-- A single-purpose application key fixture. -/
def demoDIDKeySingle : DIDKey :=
  ⟨"did-key-2", [.authenticationKey], .edDSA, demoDidId, none, demoUnderlying⟩

def demoBuilderDK : DIDBuilder :=
  ⟨demoDidId, none, .unspecified, some DID_METHOD_SPEC_V020, [demoMgmtKey],
    [demoDIDKey, demoDIDKeySingle], [], ["my-key-1", "did-key-1", "did-key-2"], []⟩

def demoUpdaterDK : DIDUpdater :=
  ⟨demoBuilderDK, [demoMgmtKey], [demoDIDKey, demoDIDKeySingle], [], []⟩

/-- Fresh key material distinct from every fixture key. -/
def freshMaterial : FreshKeyMaterial :=
  ⟨(List.replicate 32 9, List.replicate 64 9),
    (List.replicate 33 8, List.replicate 32 8), ("fresh-pub", "fresh-priv")⟩

/-- The demo updater after rotating its only management key. -/
def rotatedUpdater : DIDUpdater :=
  match demoUpdater.rotateManagementKey freshMaterial "my-key-1" with
  | .ok u => u
  | .error _ => demoUpdater

def rotatedEntry : EntryData :=
  match rotatedUpdater.exportEntryData trivialCrypto with
  | .ok e => e
  | .error _ => ⟨[], []⟩

/-- The demo updater with DID keys, after rotating its two-purpose DID key. -/
def rotatedDKUpdater : DIDUpdater :=
  match demoUpdaterDK.rotateDIDKey freshMaterial "did-key-1" with
  | .ok u => u
  | .error _ => demoUpdaterDK

def rotatedDKEntry : EntryData :=
  match rotatedDKUpdater.exportEntryData trivialCrypto with
  | .ok e => e
  | .error _ => ⟨[], []⟩

/-- A version string whose `parseFloat` value is 0.3 but whose JSON
serialization alone exceeds the entry size limit. -/
def bigVersion : String :=
  String.mk ('0' :: '.' :: '3' :: List.replicate 9998 '0')

def bigUpgrader : DIDVersionUpgrader := ⟨demoBuilder, bigVersion⟩

def demoNonce : Bytes := List.replicate 32 5

/-- The updater used for the C1 witness: one priority-1 key added on top
of the priority-0 original. -/
def demoOps : List UpdaterOp :=
  [.addMgmt freshMaterial "my-key-2" 1 .edDSA none none]

def demoUpdaterAfterOps : DIDUpdater :=
  match runOps trivialCrypto demoUpdater demoOps with
  | .ok u => u
  | .error _ => demoUpdater

def demoUpdateEntry : EntryData :=
  match demoUpdaterAfterOps.exportEntryData trivialCrypto with
  | .ok e => e
  | .error _ => ⟨[], []⟩

def bigUpgradeEntry : EntryData :=
  match bigUpgrader.exportEntryData trivialCrypto with
  | .ok e => e
  | .error _ => ⟨[], []⟩

/-- A management key whose private key is not set. -/
def demoMgmtKeyNoPriv : ManagementKey :=
  ⟨"my-key-1", 0, .edDSA, demoDidId, none, .ed (demoSecret.drop 32) none⟩

def demoBuilderNoPriv : DIDBuilder :=
  ⟨demoDidId, none, .unspecified, some DID_METHOD_SPEC_V020, [demoMgmtKeyNoPriv],
    [], [], ["my-key-1"], []⟩

def noPrivUpgrader : DIDVersionUpgrader := ⟨demoBuilderNoPriv, "0.3.0"⟩

def noPrivDeactivator : DIDDeactivator := ⟨demoBuilderNoPriv, demoMgmtKeyNoPriv⟩

/-- A collaborator whose Ed25519 signatures are oversized, to exercise the
updater's size ceiling. -/
def bigSigCrypto : Crypto :=
  { trivialCrypto with edSign := fun _ _ => List.replicate 10001 1 }

def bigSigParts : EntryData :=
  match demoUpdaterAfterOps.updateEntryParts bigSigCrypto with
  | .ok p => p
  | .error _ => ⟨[], []⟩

/-- A builder generated with a fresh id from `demoNonce`. -/
def demoFreshBuilder : DIDBuilder :=
  match mkDIDBuilder trivialCrypto demoNonce none [] [] []
      (some DID_METHOD_SPEC_V020) with
  | .ok b => b
  | .error _ => demoBuilder

/-! ## General lemmas -/

theorem utf8_append (a b : String) : utf8 (a ++ b) = utf8 a ++ utf8 b := by
  simp [utf8, String.data_append]

theorem utf8Char_length_pos (c : Char) : 1 ≤ (utf8Char c).length := by
  simp only [utf8Char]
  split
  · simp
  · split
    · simp
    · split <;> simp

theorem jsonEscapeChar_length_pos (c : Char) : 1 ≤ (jsonEscapeChar c).length := by
  simp only [jsonEscapeChar]
  split
  · simp
  · split
    · simp
    · split <;> simp

theorem length_le_flatten_map {α β : Type} (f : α → List β) (l : List α)
    (h : ∀ c, 1 ≤ (f c).length) : l.length ≤ ((l.map f).flatten).length := by
  induction l with
  | nil => simp
  | cons c cs ih =>
    simp only [List.map_cons, List.flatten_cons, List.length_append, List.length_cons]
    have := h c
    omega

theorem utf8_length_ge (s : String) : s.data.length ≤ (utf8 s).length := by
  simpa [utf8] using length_le_flatten_map utf8Char s.data utf8Char_length_pos

theorem jstr_length_ge (s : String) :
    s.data.length + 2 ≤ (jstr s).data.length := by
  have := length_le_flatten_map jsonEscapeChar s.data jsonEscapeChar_length_pos
  simp only [jstr]
  simp only [List.length_cons, List.length_append]
  omega

theorem foldl_append_eq_flatten_map {α β : Type} (f : α → List β) (l : List α)
    (acc : List β) :
    l.foldl (fun total cur => total ++ f cur) acc = acc ++ (l.map f).flatten := by
  induction l generalizing acc with
  | nil => simp
  | cons x xs ih => simp [ih, List.append_assoc]

theorem selectFold_mem (ks : List ManagementKey) (init : ManagementKey) :
    ks.foldl (fun m k' => if k'.priority < m.priority then k' else m) init = init ∨
    ks.foldl (fun m k' => if k'.priority < m.priority then k' else m) init ∈ ks := by
  induction ks generalizing init with
  | nil => left; rfl
  | cons k ks ih =>
    simp only [List.foldl_cons]
    rcases ih (if k.priority < init.priority then k else init) with h | h
    · rw [h]
      by_cases hc : k.priority < init.priority
      · right; simp [hc]
      · left; simp [hc]
    · right; exact List.mem_cons_of_mem _ h

theorem selectFold_le (ks : List ManagementKey) (init : ManagementKey) :
    (ks.foldl (fun m k' => if k'.priority < m.priority then k' else m) init).priority ≤
      init.priority ∧
    ∀ k' ∈ ks,
      (ks.foldl (fun m k' => if k'.priority < m.priority then k' else m) init).priority ≤
        k'.priority := by
  induction ks generalizing init with
  | nil => simp
  | cons k ks ih =>
    simp only [List.foldl_cons]
    obtain ⟨h1, h2⟩ := ih (if k.priority < init.priority then k else init)
    have hik : (if k.priority < init.priority then k else init).priority ≤ init.priority ∧
        (if k.priority < init.priority then k else init).priority ≤ k.priority := by
      by_cases hc : k.priority < init.priority
      · simp only [if_pos hc]
        exact ⟨le_of_lt hc, le_refl _⟩
      · simp only [if_neg hc]
        exact ⟨le_refl _, le_of_not_lt hc⟩
    refine ⟨le_trans h1 hik.1, ?_⟩
    intro k' hk'
    rcases List.mem_cons.mp hk' with rfl | hk'
    · exact le_trans h1 hik.2
    · exact h2 k' hk'

/-- `sort((a, b) => a.priority - b.priority)[0]` on a non-empty list is the
first key of numerically smallest priority. -/
theorem selectSigningKey_spec (l : List ManagementKey) (h : l ≠ []) :
    ∃ k, selectSigningKey l = some k ∧ k ∈ l ∧
      ∀ k' ∈ l, k.priority ≤ k'.priority := by
  match l with
  | [] => exact absurd rfl h
  | k :: ks =>
    refine ⟨_, rfl, ?_, ?_⟩
    · rcases selectFold_mem ks k with h' | h'
      · rw [h']; exact List.mem_cons_self _ _
      · exact List.mem_cons_of_mem _ h'
    · intro k' hk'
      obtain ⟨h1, h2⟩ := selectFold_le ks k
      rcases List.mem_cons.mp hk' with rfl | hk'
      · exact h1
      · exact h2 k' hk'

theorem sign_error_msg (C : Crypto) (m : Bytes) (u : Underlying) (e : String)
    (h : u.sign C m = .error e) : e = "Private key is not set." := by
  cases u with
  | ed v s => cases s <;> simp_all [Underlying.sign]
  | ec v s => cases s <;> simp_all [Underlying.sign]
  | rsa v s => cases s <;> simp_all [Underlying.sign]

/-! ## Claims -/

/-- C6: `calculateChainId` returns the lowercase hex encoding of SHA-256
of the in-order concatenation of the SHA-256 digests of the individual
extIds; it is deterministic; and a freshly generated DID id hashes
exactly the triple `[create entry-type tag, schema-version tag, 32-byte
nonce]`, the stored nonce. -/
theorem c6_calculate_chain_id (C : Crypto) (extIds extIds' : List Bytes)
    (nonce : Bytes) (v : Option String) (b : DIDBuilder)
    (hlen : nonce.length = 32) (heq : extIds = extIds')
    (hmk : mkDIDBuilder C nonce none [] [] [] v = .ok b) :
    calculateChainId C extIds =
      bytesToHex (C.sha256 ((extIds.map C.sha256).flatten)) ∧
    calculateChainId C extIds = calculateChainId C extIds' ∧
    b.id = DID_METHOD_NAME ++ ":" ++
      calculateChainId C [utf8 entryTypeCreate, utf8 ENTRY_SCHEMA_V100, nonce] ∧
    b.nonce = some nonce := by
  refine ⟨?_, by rw [heq], ?_, ?_⟩
  · simp [calculateChainId, foldl_append_eq_flatten_map]
  · simp only [mkDIDBuilder, checkAliasesUnique, List.map_nil, Bind.bind,
      Except.bind, Except.ok.injEq] at hmk
    rw [← hmk]
    rfl
  · simp only [mkDIDBuilder, checkAliasesUnique, List.map_nil, Bind.bind,
      Except.bind, Except.ok.injEq] at hmk
    rw [← hmk]

set_option maxRecDepth 40000 in
theorem c6_witness :
    demoNonce.length = 32 ∧
    mkDIDBuilder trivialCrypto demoNonce none [] [] []
      (some DID_METHOD_SPEC_V020) = .ok demoFreshBuilder ∧
    (calculateChainId trivialCrypto [[1], [2]] =
      bytesToHex (trivialCrypto.sha256 (([[1], [2]].map trivialCrypto.sha256).flatten)) ∧
    calculateChainId trivialCrypto [[1], [2]] = calculateChainId trivialCrypto [[1], [2]] ∧
    demoFreshBuilder.id = DID_METHOD_NAME ++ ":" ++
      calculateChainId trivialCrypto
        [utf8 entryTypeCreate, utf8 ENTRY_SCHEMA_V100, demoNonce] ∧
    demoFreshBuilder.nonce = some demoNonce) :=
  ⟨by decide, by decide,
    c6_calculate_chain_id trivialCrypto [[1], [2]] [[1], [2]] demoNonce
      (some DID_METHOD_SPEC_V020) demoFreshBuilder (by decide) rfl (by decide)⟩

/-- C8: for a builder with a non-empty management-key set, constructing a
`DIDDeactivator` selects the first key of numerically smallest priority;
construction fails exactly when that key's priority is not 0 (before any
signing), and otherwise that key becomes the deactivator's signing key. -/
theorem c8_deactivator_priority_zero (b : DIDBuilder)
    (hne : b.managementKeys ≠ []) :
    b.deactivate = mkDIDDeactivator b ∧
    ∃ k, selectSigningKey b.managementKeys = some k ∧
      k ∈ b.managementKeys ∧
      (∀ k' ∈ b.managementKeys, k.priority ≤ k'.priority) ∧
      (k.priority = 0 → mkDIDDeactivator b = .ok ⟨b, k⟩) ∧
      (k.priority ≠ 0 → mkDIDDeactivator b =
        .error "Deactivation of a DID requires the availability of a management key with priority 0.") := by
  obtain ⟨k, hsel, hmem, hmin⟩ := selectSigningKey_spec _ hne
  refine ⟨?_, k, hsel, hmem, hmin, ?_, ?_⟩
  · have : b.managementKeys.length ≠ 0 := by
      simpa [List.length_eq_zero] using hne
    simp [DIDBuilder.deactivate, this]
  · intro h0
    simp [mkDIDDeactivator, hsel, h0]
  · intro h0
    simp [mkDIDDeactivator, hsel, h0]

set_option maxRecDepth 40000 in
theorem c8_witness :
    demoBuilderP1.managementKeys ≠ [] ∧
    (demoBuilderP1.deactivate = mkDIDDeactivator demoBuilderP1 ∧
    ∃ k, selectSigningKey demoBuilderP1.managementKeys = some k ∧
      k ∈ demoBuilderP1.managementKeys ∧
      (∀ k' ∈ demoBuilderP1.managementKeys, k.priority ≤ k'.priority) ∧
      (k.priority = 0 → mkDIDDeactivator demoBuilderP1 = .ok ⟨demoBuilderP1, k⟩) ∧
      (k.priority ≠ 0 → mkDIDDeactivator demoBuilderP1 =
        .error "Deactivation of a DID requires the availability of a management key with priority 0.")) :=
  ⟨by decide, c8_deactivator_priority_zero demoBuilderP1 (by decide)⟩

theorem updateEntryParts_error_msgs (C : Crypto) (u : DIDUpdater) (e : String)
    (hany : u.didBuilder.managementKeys.any (fun k => k.priority = 0) = true)
    (he : u.updateEntryParts C = .error e) :
    e = "The are no changes made to the DID." ∨
    e = "TypeError: Cannot read properties of undefined (reading fullId)" ∨
    e = "Private key is not set." := by
  simp only [DIDUpdater.updateEntryParts, hany, not_true_eq_false, if_false] at he
  split at he
  · left
    exact (Except.error.injEq _ _).mp he.symm |>.symm ▸ rfl
  · split at he
    · right; left
      exact ((Except.error.injEq _ _).mp he).symm
    · rename_i signingKey heq
      simp only [Bind.bind, Except.bind] at he
      cases hs : signingKey.underlyingKey.sign C
          (C.sha256 (utf8 (entryTypeUpdate ++ ENTRY_SCHEMA_V100 ++
            fullId u.didBuilder.id signingKey.«alias» ++
            updateEntryContentJson
              (constructAddObject
                (getNewMgmtKeys C u.didBuilder.id u.originalManagementKeys
                  u.didBuilder.managementKeys)
                (getNewDIDKeys C u.didBuilder.id u.originalDIDKeys u.didBuilder.didKeys)
                (getNewServices u.didBuilder.id u.originalServices u.didBuilder.services))
              (appendPurposeRevocations u.didBuilder.id
                (constructRevokeObject
                  (getRevokedMgmtKeys u.didBuilder.id u.originalManagementKeys
                    u.didBuilder.managementKeys)
                  (getRevokedDIDKeys u.didBuilder.id u.originalDIDKeys
                    u.didBuilder.didKeys)
                  (getRevokedServices u.didBuilder.id u.originalServices
                    u.didBuilder.services))
                u.didKeyPurposesToRevoke)))) with
      | ok sig => rw [hs] at he; simp at he
      | error e' =>
        rw [hs] at he
        simp only [Except.error.injEq] at he
        right; right
        rw [← he]
        exact sign_error_msg C _ _ e' hs

/-- C1: whenever the current management-key collection has no priority-0
key, creation export (`DID.exportEntryData`) and update export
(`DIDUpdater.exportEntryData`) fail with an error and produce no entry;
with a priority-0 key present the priority-zero checks pass (the export
never fails with those errors); and this holds at every updater state
reachable by any sequence of add/revoke/rotate operations. -/
theorem c1_priority_zero_invariant :
    (∀ (C : Crypto) (d : DID), (∀ k ∈ d.managementKeys, k.priority ≠ 0) →
      ∃ msg, d.exportEntryData C = .error msg) ∧
    (∀ (C : Crypto) (d : DID) (k : ManagementKey),
      k ∈ d.managementKeys → k.priority = 0 →
      d.exportEntryData C ≠ .error "The DID must have at least one management key." ∧
      d.exportEntryData C ≠ .error "At least one management key must have priority 0.") ∧
    (∀ (C : Crypto) (u₀ : DIDUpdater) (ops : List UpdaterOp) (u : DIDUpdater),
      runOps C u₀ ops = .ok u →
      ((∀ k ∈ u.didBuilder.managementKeys, k.priority ≠ 0) →
        u.exportEntryData C =
          .error "DIDUpdate entry would leave no management keys of priority zero.") ∧
      ((∃ k ∈ u.didBuilder.managementKeys, k.priority = 0) →
        u.exportEntryData C ≠
          .error "DIDUpdate entry would leave no management keys of priority zero.")) := by
  refine ⟨?_, ?_, ?_⟩
  · intro C d h
    by_cases hlt : d.managementKeys.length < 1
    · exact ⟨"The DID must have at least one management key.",
        by simp [DID.exportEntryData, hlt]⟩
    · have hany : d.managementKeys.any (fun mk => mk.priority = 0) = false := by
        simp only [List.any_eq_false, decide_eq_true_eq]
        exact h
      exact ⟨"At least one management key must have priority 0.",
        by simp [DID.exportEntryData, hlt, hany]⟩
  · intro C d k hk h0
    have hlen : ¬ (d.managementKeys.length < 1) := by
      have := List.length_pos.mpr (List.ne_nil_of_mem hk)
      omega
    have hany : d.managementKeys.any (fun mk => mk.priority = 0) = true :=
      List.any_eq_true.mpr ⟨k, hk, by simp [h0]⟩
    have main : ∀ msg : String,
        msg ≠ "You have exceeded the entry size limit! Please remove some of your keys or services." →
        msg ≠ "TypeError: Cannot read properties of undefined (reading byteLength)" →
        d.exportEntryData C ≠ .error msg := by
      intro msg h1 h2
      simp only [DID.exportEntryData, if_neg hlen, hany, not_true_eq_false, if_false]
      split
      · split
        · intro hc
          exact h1 ((Except.error.injEq _ _).mp hc).symm
        · intro hc
          simp at hc
      · intro hc
        exact h2 ((Except.error.injEq _ _).mp hc).symm
    exact ⟨main _ (by decide) (by decide), main _ (by decide) (by decide)⟩
  · intro C u₀ ops u _
    constructor
    · intro h
      have hany : u.didBuilder.managementKeys.any (fun k => k.priority = 0) = false := by
        simp only [List.any_eq_false, decide_eq_true_eq]
        exact h
      simp [DIDUpdater.exportEntryData, DIDUpdater.updateEntryParts, hany,
        Bind.bind, Except.bind]
    · intro ⟨k, hk, h0⟩
      have hany : u.didBuilder.managementKeys.any (fun k => k.priority = 0) = true :=
        List.any_eq_true.mpr ⟨k, hk, by simp [h0]⟩
      cases hp : u.updateEntryParts C with
      | error e =>
        have := updateEntryParts_error_msgs C u e hany hp
        simp only [DIDUpdater.exportEntryData, hp, Bind.bind, Except.bind, ne_eq,
          Except.error.injEq]
        rcases this with rfl | rfl | rfl <;> decide
      | ok parts =>
        simp only [DIDUpdater.exportEntryData, hp, Bind.bind, Except.bind]
        split
        · simp only [ne_eq, Except.error.injEq]
          decide
        · simp

set_option maxRecDepth 100000 in
theorem c1_witness :
    ((∀ k ∈ (demoBuilderP1.build).managementKeys, k.priority ≠ 0) ∧
      ∃ msg, (demoBuilderP1.build).exportEntryData trivialCrypto = .error msg) ∧
    (demoMgmtKey ∈ (demoBuilder.build).managementKeys ∧ demoMgmtKey.priority = 0 ∧
      ((demoBuilder.build).exportEntryData trivialCrypto ≠
          .error "The DID must have at least one management key." ∧
        (demoBuilder.build).exportEntryData trivialCrypto ≠
          .error "At least one management key must have priority 0.")) ∧
    (runOps trivialCrypto demoUpdaterP1 [] = .ok demoUpdaterP1 ∧
      demoUpdaterP1.exportEntryData trivialCrypto =
        .error "DIDUpdate entry would leave no management keys of priority zero.") ∧
    (runOps trivialCrypto demoUpdater demoOps = .ok demoUpdaterAfterOps ∧
      (∃ k ∈ demoUpdaterAfterOps.didBuilder.managementKeys, k.priority = 0) ∧
      demoUpdaterAfterOps.exportEntryData trivialCrypto ≠
        .error "DIDUpdate entry would leave no management keys of priority zero.") :=
  ⟨⟨by decide, c1_priority_zero_invariant.1 trivialCrypto demoBuilderP1.build (by decide)⟩,
    ⟨by decide, by decide,
      c1_priority_zero_invariant.2.1 trivialCrypto demoBuilder.build demoMgmtKey
        (by decide) (by decide)⟩,
    ⟨by decide,
      (c1_priority_zero_invariant.2.2 trivialCrypto demoUpdaterP1 [] demoUpdaterP1
        (by decide)).1 (by decide)⟩,
    ⟨by decide, ⟨demoMgmtKey, by decide, by decide⟩,
      (c1_priority_zero_invariant.2.2 trivialCrypto demoUpdater demoOps
        demoUpdaterAfterOps (by decide)).2 ⟨demoMgmtKey, by decide, by decide⟩⟩⟩

/-- C10: a builder constructed from a supplied, grammatically valid DID id
(rehydration) keeps its nonce `undefined`; the creation export uses the
nonce unguardedly, so `exportEntryData` on the built DID always fails with
an error instead of returning a creation entry. -/
theorem c10_rehydrated_creation_fails (C : Crypto) (freshNonce : Bytes)
    (didId : String) (mgmt : List ManagementKey) (didk : List DIDKey)
    (svc : List Service) (v : Option String) (b : DIDBuilder)
    (hvalid : isValidDIDId didId = true)
    (hmk : mkDIDBuilder C freshNonce (some didId) mgmt didk svc v = .ok b) :
    b.nonce = none ∧ b.id = didId ∧
    ∃ msg, (b.build).exportEntryData C = .error msg := by
  simp only [mkDIDBuilder, hvalid, if_true, Bind.bind, Except.bind] at hmk
  cases h1 : checkAliasesUnique [] (mgmt.map (·.«alias»)) with
  | error e => rw [h1] at hmk; simp at hmk
  | ok used1 =>
    rw [h1] at hmk
    dsimp only at hmk
    cases h2 : checkAliasesUnique used1 (didk.map (·.«alias»)) with
    | error e => rw [h2] at hmk; simp at hmk
    | ok used2 =>
      rw [h2] at hmk
      dsimp only at hmk
      cases h3 : checkAliasesUnique [] (svc.map (·.«alias»)) with
      | error e => rw [h3] at hmk; simp at hmk
      | ok used3 =>
        rw [h3] at hmk
        dsimp only at hmk
        simp only [Except.ok.injEq] at hmk
        subst hmk
        refine ⟨rfl, rfl, ?_⟩
        by_cases hlt : mgmt.length < 1
        · exact ⟨"The DID must have at least one management key.",
            by simp [DID.exportEntryData, DIDBuilder.build, hlt]⟩
        · by_cases hany : mgmt.any (fun mk => mk.priority = 0)
          · exact ⟨"TypeError: Cannot read properties of undefined (reading byteLength)",
              by simp [DID.exportEntryData, DIDBuilder.build, hlt, hany]⟩
          · exact ⟨"At least one management key must have priority 0.",
              by simp [DID.exportEntryData, DIDBuilder.build, hlt, hany]⟩

set_option maxRecDepth 100000 in
theorem c10_witness :
    isValidDIDId demoDidId = true ∧
    mkDIDBuilder trivialCrypto [] (some demoDidId) [demoMgmtKey] [] []
      (some DID_METHOD_SPEC_V020) = .ok demoBuilder ∧
    (demoBuilder.nonce = none ∧ demoBuilder.id = demoDidId ∧
      ∃ msg, (demoBuilder.build).exportEntryData trivialCrypto = .error msg) :=
  ⟨by decide, by decide,
    c10_rehydrated_creation_fails trivialCrypto [] demoDidId [demoMgmtKey] [] []
      (some DID_METHOD_SPEC_V020) demoBuilder (by decide) (by decide)⟩

/-- C5: every successful update export is signed by the first management
key of numerically smallest priority in the snapshot taken at updater
construction, and extIds[3] is that key's signature over the SHA-256
digest of the delimiter-free UTF-8 concatenation of the update tag, the
schema tag, the signing key's full id and the JSON content. -/
theorem c5_update_signed_by_original_min_priority (C : Crypto) (u : DIDUpdater)
    (e : EntryData) (h : u.exportEntryData C = .ok e) :
    ∃ sk sig,
      selectSigningKey u.originalManagementKeys = some sk ∧
      sk ∈ u.originalManagementKeys ∧
      (∀ k ∈ u.originalManagementKeys, sk.priority ≤ k.priority) ∧
      sk.underlyingKey.sign C
        (C.sha256 (utf8 (entryTypeUpdate ++ ENTRY_SCHEMA_V100 ++
          fullId u.didBuilder.id sk.«alias») ++ e.content)) = .ok sig ∧
      e.extIds = [utf8 entryTypeUpdate, utf8 ENTRY_SCHEMA_V100,
        utf8 (fullId u.didBuilder.id sk.«alias»), sig] := by
  simp only [DIDUpdater.exportEntryData, Bind.bind, Except.bind] at h
  cases hp : u.updateEntryParts C with
  | error e' => rw [hp] at h; simp at h
  | ok parts =>
    rw [hp] at h
    have he : e = parts := by
      dsimp only at h
      split at h
      · simp at h
      · exact ((Except.ok.injEq _ _).mp h).symm
    subst he
    simp only [DIDUpdater.updateEntryParts, Bind.bind, Except.bind] at hp
    split at hp
    · simp at hp
    · split at hp
      · simp at hp
      · split at hp
        · simp at hp
        · rename_i signingKey hsel
          cases hs : signingKey.underlyingKey.sign C
              (C.sha256 (utf8 (entryTypeUpdate ++ ENTRY_SCHEMA_V100 ++
                fullId u.didBuilder.id signingKey.«alias» ++
                updateEntryContentJson
                  (constructAddObject
                    (getNewMgmtKeys C u.didBuilder.id u.originalManagementKeys
                      u.didBuilder.managementKeys)
                    (getNewDIDKeys C u.didBuilder.id u.originalDIDKeys
                      u.didBuilder.didKeys)
                    (getNewServices u.didBuilder.id u.originalServices
                      u.didBuilder.services))
                  (appendPurposeRevocations u.didBuilder.id
                    (constructRevokeObject
                      (getRevokedMgmtKeys u.didBuilder.id u.originalManagementKeys
                        u.didBuilder.managementKeys)
                      (getRevokedDIDKeys u.didBuilder.id u.originalDIDKeys
                        u.didBuilder.didKeys)
                      (getRevokedServices u.didBuilder.id u.originalServices
                        u.didBuilder.services))
                    u.didKeyPurposesToRevoke)))) with
          | error e' => rw [hs] at hp; simp at hp
          | ok sig =>
            rw [hs] at hp
            simp only [Except.ok.injEq] at hp
            have hne : u.originalManagementKeys ≠ [] := by
              intro hnil
              rw [hnil] at hsel
              simp [selectSigningKey] at hsel
            obtain ⟨sk', hsel', hmem, hmin⟩ := selectSigningKey_spec _ hne
            rw [hsel] at hsel'
            have hsk : sk' = signingKey := by
              have := hsel'
              simp only [Option.some.injEq] at this
              exact this.symm
            subst hsk
            refine ⟨sk', sig, hsel, hmem, hmin, ?_, ?_⟩
            · rw [← hp]
              dsimp only
              rw [← utf8_append]
              exact hs
            · rw [← hp]

set_option maxRecDepth 400000 in
theorem c5_witness :
    demoUpdaterAfterOps.exportEntryData trivialCrypto = .ok demoUpdateEntry ∧
    (∃ sk sig,
      selectSigningKey demoUpdaterAfterOps.originalManagementKeys = some sk ∧
      sk ∈ demoUpdaterAfterOps.originalManagementKeys ∧
      (∀ k ∈ demoUpdaterAfterOps.originalManagementKeys, sk.priority ≤ k.priority) ∧
      sk.underlyingKey.sign trivialCrypto
        (trivialCrypto.sha256 (utf8 (entryTypeUpdate ++ ENTRY_SCHEMA_V100 ++
          fullId demoUpdaterAfterOps.didBuilder.id sk.«alias») ++
            demoUpdateEntry.content)) = .ok sig ∧
      demoUpdateEntry.extIds = [utf8 entryTypeUpdate, utf8 ENTRY_SCHEMA_V100,
        utf8 (fullId demoUpdaterAfterOps.didBuilder.id sk.«alias»), sig]) :=
  ⟨by decide,
    c5_update_signed_by_original_min_priority trivialCrypto demoUpdaterAfterOps
      demoUpdateEntry (by decide)⟩

theorem mkDIDKey_reconstruct (C : Crypto) (k : DIDKey) (ps : List DIDKeyPurpose)
    (hps : ps.Nodup ∧ (ps.length = 1 ∨ ps.length = 2))
    (hwf : k.wellFormed C = true) :
    mkDIDKey C emptyFresh k.«alias» ps k.keyType k.controller k.priorityRequirement
      ((k.underlyingKey.publicKeyStr C).map KeyArg.str)
      ((k.underlyingKey.privateKeyStr C).map KeyArg.str) =
    .ok { k with purpose := ps } := by
  simp only [DIDKey.wellFormed, wellFormedKeyB, Bool.and_eq_true] at hwf
  obtain ⟨⟨⟨ha, hc⟩, hpr⟩, hvar⟩ := hwf
  have hval : validateKeyInputParams k.«alias» k.controller k.priorityRequirement =
      .ok () := by
    simp [validateKeyInputParams, ha, hc, hpr]
  simp only [mkDIDKey, hval, Bind.bind, Except.bind]
  have hund : mkUnderlying C emptyFresh k.keyType
      ((k.underlyingKey.publicKeyStr C).map KeyArg.str)
      ((k.underlyingKey.privateKeyStr C).map KeyArg.str) = .ok k.underlyingKey := by
    cases hkt : k.keyType <;> cases hu : k.underlyingKey <;>
      rw [hkt, hu] at hvar <;> try simp at hvar
    · rename_i v s?
      cases s? with
      | some s =>
        simp only [Bool.and_eq_true, decide_eq_true_eq] at hvar
        obtain ⟨⟨hrt, hrtv⟩, hder⟩ := hvar
        simp [mkUnderlying, Underlying.publicKeyStr, Underlying.privateKeyStr,
          mkEd25519Key, decodeArg, hrt, hrtv, hder]
      | none =>
        simp only [Bool.and_eq_true, decide_eq_true_eq] at hvar
        obtain ⟨hrtv, h32⟩ := hvar
        simp [mkUnderlying, Underlying.publicKeyStr, Underlying.privateKeyStr,
          mkEd25519Key, decodeArg, hrtv, h32]
    · rename_i v s?
      cases s? with
      | some s =>
        simp only [Bool.and_eq_true, decide_eq_true_eq] at hvar
        obtain ⟨⟨hrt, hrtv⟩, hder⟩ := hvar
        simp [mkUnderlying, Underlying.publicKeyStr, Underlying.privateKeyStr,
          mkECDSASecp256k1Key, decodeArg, hrt, hrtv, hder]
      | none =>
        simp only [Bool.and_eq_true, decide_eq_true_eq] at hvar
        obtain ⟨hrtv, hvalid⟩ := hvar
        simp [mkUnderlying, Underlying.publicKeyStr, Underlying.privateKeyStr,
          mkECDSASecp256k1Key, decodeArg, hrtv, hvalid]
    · rename_i v? s?
      cases v? with
      | some v =>
        cases s? <;>
          simp [mkUnderlying, Underlying.publicKeyStr, Underlying.privateKeyStr,
            mkRSAKey, Bind.bind, Except.bind, Pure.pure, Except.pure]
      | none =>
        cases s? with
        | some s =>
          simp [mkUnderlying, Underlying.publicKeyStr, Underlying.privateKeyStr,
            mkRSAKey, Bind.bind, Except.bind, Pure.pure, Except.pure]
        | none => simp at hvar
  rw [hund]
  dsimp only
  rw [if_neg (not_not_intro hps)]

theorem foldlM_viewStep (C : Crypto) (buffer : List (String × DIDKeyPurpose))
    (l : List DIDKey) (acc : List DIDKey)
    (h : ∀ k ∈ l, k.wellFormed C = true) :
    l.foldlM (didKeysViewStep C buffer) acc = .ok (acc ++ l.map (viewKey buffer)) := by
  induction l generalizing acc with
  | nil => simp [pure, Except.pure]
  | cons k ks ih =>
    have hk := h k (List.mem_cons_self _ _)
    have hks := fun k' hk' => h k' (List.mem_cons_of_mem _ hk')
    simp only [List.foldlM_cons]
    cases hb : lookupAssoc buffer k.«alias» with
    | none =>
      simp only [didKeysViewStep, hb, Bind.bind, Except.bind]
      rw [ih _ hks]
      simp [viewKey, hb]
    | some rp =>
      simp only [didKeysViewStep, hb, Bind.bind, Except.bind]
      rw [mkDIDKey_reconstruct C k [if rp = DIDKeyPurpose.publicKey then
          DIDKeyPurpose.authenticationKey else DIDKeyPurpose.publicKey]
        (by simp) hk]
      dsimp only
      rw [ih _ hks]
      simp [viewKey, hb, purposeComplement]

/-- The lazy `didKeys` view of an updater whose builder holds only
well-formed keys: every buffered «alias» carries the complementary purpose,
all other keys pass through unchanged. -/
theorem didKeysView_eq_map (C : Crypto) (u : DIDUpdater)
    (h : ∀ k ∈ u.didBuilder.didKeys, k.wellFormed C = true) :
    u.didKeysView C =
      .ok (u.didBuilder.didKeys.map (viewKey u.didKeyPurposesToRevoke)) := by
  simpa [DIDUpdater.didKeysView] using
    foldlM_viewStep C u.didKeyPurposesToRevoke u.didBuilder.didKeys [] h

theorem purposeComplement_of_ne (p q : DIDKeyPurpose) (h : p ≠ q) :
    purposeComplement p = q := by
  cases p <;> cases q <;> simp_all [purposeComplement]

theorem lookup_setAssoc_self (l : List (String × DIDKeyPurpose)) (a : String)
    (p : DIDKeyPurpose) : lookupAssoc (setAssoc l a p) a = some p := by
  induction l with
  | nil => simp [setAssoc, lookupAssoc]
  | cons kv rest ih =>
    obtain ⟨x, y⟩ := kv
    by_cases h : x = a
    · simp [setAssoc, lookupAssoc, h]
    · simp [setAssoc, lookupAssoc, h, ih]

/-- C7: on a two-purpose DID key, `revokeDIDKeyPurpose` leaves the lazy
`didKeys` view containing a key with the same «alias», key material,
controller and priority requirement whose purpose is exactly the
complementary one; on a single-purpose key it is the same operation as
`revokeDIDKey`, removing the key entirely. -/
theorem c7_revoke_did_key_purpose (C : Crypto) (u : DIDUpdater) (a : String)
    (k : DIDKey) (p : DIDKeyPurpose)
    (hfind : u.didBuilder.didKeys.find? (fun k' => k'.«alias» = a) = some k)
    (hwf : ∀ k' ∈ u.didBuilder.didKeys, k'.wellFormed C = true) :
    (∀ q, k.purpose = [p, q] → p ≠ q →
      ∃ view, (u.revokeDIDKeyPurpose a p).didKeysView C = .ok view ∧
        { k with purpose := [q] } ∈ view) ∧
    (k.purpose = [p] →
      u.revokeDIDKeyPurpose a p = u.revokeDIDKey a ∧
      ∀ k' ∈ (u.revokeDIDKeyPurpose a p).didBuilder.didKeys, k'.«alias» ≠ a) := by
  have hmem : k ∈ u.didBuilder.didKeys := List.mem_of_find?_eq_some hfind
  have halias : k.«alias» = a := by
    have := List.find?_some hfind
    simpa using this
  constructor
  · intro q hpur hpq
    have hrev : u.revokeDIDKeyPurpose a p =
        { u with didKeyPurposesToRevoke := setAssoc u.didKeyPurposesToRevoke a p } := by
      simp [DIDUpdater.revokeDIDKeyPurpose, hfind, hpur]
    rw [hrev]
    refine ⟨_, didKeysView_eq_map C _ hwf, ?_⟩
    refine List.mem_map.mpr ⟨k, hmem, ?_⟩
    simp only [viewKey, halias, lookup_setAssoc_self]
    rw [purposeComplement_of_ne p q hpq]
  · intro hpur
    have hrev : u.revokeDIDKeyPurpose a p = u.revokeDIDKey a := by
      simp [DIDUpdater.revokeDIDKeyPurpose, hfind, hpur]
    refine ⟨hrev, ?_⟩
    rw [hrev]
    intro k' hk'
    simp only [DIDUpdater.revokeDIDKey] at hk'
    have := List.of_mem_filter hk'
    simpa using this

set_option maxRecDepth 400000 in
theorem c7_witness :
    (demoUpdaterDK.didBuilder.didKeys.find?
        (fun k' => k'.«alias» = "did-key-1") = some demoDIDKey ∧
      demoDIDKey.purpose = [.publicKey, .authenticationKey] ∧
      ∃ view, (demoUpdaterDK.revokeDIDKeyPurpose "did-key-1"
          DIDKeyPurpose.publicKey).didKeysView trivialCrypto = .ok view ∧
        { demoDIDKey with purpose := [DIDKeyPurpose.authenticationKey] } ∈ view) ∧
    (demoUpdaterDK.didBuilder.didKeys.find?
        (fun k' => k'.«alias» = "did-key-2") = some demoDIDKeySingle ∧
      demoDIDKeySingle.purpose = [.authenticationKey] ∧
      demoUpdaterDK.revokeDIDKeyPurpose "did-key-2" DIDKeyPurpose.authenticationKey =
        demoUpdaterDK.revokeDIDKey "did-key-2" ∧
      ∀ k' ∈ (demoUpdaterDK.revokeDIDKeyPurpose "did-key-2"
          DIDKeyPurpose.authenticationKey).didBuilder.didKeys,
        k'.«alias» ≠ "did-key-2") :=
  ⟨⟨by decide, by decide,
    (c7_revoke_did_key_purpose trivialCrypto demoUpdaterDK "did-key-1" demoDIDKey
      DIDKeyPurpose.publicKey (by decide) (by decide)).1
      DIDKeyPurpose.authenticationKey (by decide) (by decide)⟩,
   ⟨by decide, by decide,
    (c7_revoke_did_key_purpose trivialCrypto demoUpdaterDK "did-key-2"
      demoDIDKeySingle DIDKeyPurpose.authenticationKey (by decide) (by decide)).2
      (by decide)⟩⟩

/-- C9: the pending purpose-revocation buffer holds at most one purpose
per «alias»: two successive `revokeDIDKeyPurpose` calls on a two-purpose
key (one per purpose) do not remove the key — the second call overwrites
the first buffered revocation, the key stays in the builder's collection
(and in the view, with the complement of the second purpose), and the
update entry's revoke object carries only the second purpose. -/
theorem c9_purpose_buffer_overwrite (C : Crypto) (u : DIDUpdater) (a : String)
    (k : DIDKey) (p₁ p₂ : DIDKeyPurpose)
    (hbuf : u.didKeyPurposesToRevoke = [])
    (hfind : u.didBuilder.didKeys.find? (fun k' => k'.«alias» = a) = some k)
    (hpur : k.purpose = [p₁, p₂]) (hne : p₁ ≠ p₂)
    (hwf : ∀ k' ∈ u.didBuilder.didKeys, k'.wellFormed C = true) :
    ((u.revokeDIDKeyPurpose a p₁).revokeDIDKeyPurpose a p₂).didBuilder.didKeys =
      u.didBuilder.didKeys ∧
    ((u.revokeDIDKeyPurpose a p₁).revokeDIDKeyPurpose a p₂).didKeyPurposesToRevoke =
      [(a, p₂)] ∧
    (∃ view,
      ((u.revokeDIDKeyPurpose a p₁).revokeDIDKeyPurpose a p₂).didKeysView C = .ok view ∧
      { k with purpose := [p₁] } ∈ view) ∧
    (∀ ro : RevokeObject,
      appendPurposeRevocations u.didBuilder.id ro
        ((u.revokeDIDKeyPurpose a p₁).revokeDIDKeyPurpose a p₂).didKeyPurposesToRevoke =
      { ro with
          didKey := some ((ro.didKey.getD []) ++
            [⟨fullId u.didBuilder.id a, some [p₂]⟩]) }) := by
  have hmem : k ∈ u.didBuilder.didKeys := List.mem_of_find?_eq_some hfind
  have halias : k.«alias» = a := by
    have := List.find?_some hfind
    simpa using this
  have h1 : u.revokeDIDKeyPurpose a p₁ =
      { u with didKeyPurposesToRevoke := [(a, p₁)] } := by
    simp [DIDUpdater.revokeDIDKeyPurpose, hfind, hpur, hbuf, setAssoc]
  have h2 : (u.revokeDIDKeyPurpose a p₁).revokeDIDKeyPurpose a p₂ =
      { u with didKeyPurposesToRevoke := [(a, p₂)] } := by
    rw [h1]
    simp [DIDUpdater.revokeDIDKeyPurpose, hfind, hpur, setAssoc]
  rw [h2]
  refine ⟨rfl, rfl, ⟨_, didKeysView_eq_map C _ hwf, ?_⟩, ?_⟩
  · refine List.mem_map.mpr ⟨k, hmem, ?_⟩
    simp [viewKey, halias, lookupAssoc, purposeComplement_of_ne p₂ p₁ (Ne.symm hne)]
  · intro ro
    simp [appendPurposeRevocations]

set_option maxRecDepth 400000 in
theorem c9_witness :
    (demoUpdaterDK.didKeyPurposesToRevoke = [] ∧
      demoUpdaterDK.didBuilder.didKeys.find?
        (fun k' => k'.«alias» = "did-key-1") = some demoDIDKey ∧
      demoDIDKey.purpose = [DIDKeyPurpose.publicKey, DIDKeyPurpose.authenticationKey]) ∧
    (((demoUpdaterDK.revokeDIDKeyPurpose "did-key-1" DIDKeyPurpose.publicKey).revokeDIDKeyPurpose
        "did-key-1" DIDKeyPurpose.authenticationKey).didBuilder.didKeys =
      demoUpdaterDK.didBuilder.didKeys ∧
    ((demoUpdaterDK.revokeDIDKeyPurpose "did-key-1" DIDKeyPurpose.publicKey).revokeDIDKeyPurpose
        "did-key-1" DIDKeyPurpose.authenticationKey).didKeyPurposesToRevoke =
      [("did-key-1", DIDKeyPurpose.authenticationKey)] ∧
    (∃ view,
      ((demoUpdaterDK.revokeDIDKeyPurpose "did-key-1" DIDKeyPurpose.publicKey).revokeDIDKeyPurpose
        "did-key-1" DIDKeyPurpose.authenticationKey).didKeysView trivialCrypto = .ok view ∧
      { demoDIDKey with purpose := [DIDKeyPurpose.publicKey] } ∈ view) ∧
    (∀ ro : RevokeObject,
      appendPurposeRevocations demoUpdaterDK.didBuilder.id ro
        ((demoUpdaterDK.revokeDIDKeyPurpose "did-key-1" DIDKeyPurpose.publicKey).revokeDIDKeyPurpose
          "did-key-1" DIDKeyPurpose.authenticationKey).didKeyPurposesToRevoke =
      { ro with
          didKey := some ((ro.didKey.getD []) ++
            [⟨fullId demoUpdaterDK.didBuilder.id "did-key-1",
              some [DIDKeyPurpose.authenticationKey]⟩]) })) :=
  ⟨⟨by decide, by decide, by decide⟩,
    c9_purpose_buffer_overwrite trivialCrypto demoUpdaterDK "did-key-1" demoDIDKey
      DIDKeyPurpose.publicKey DIDKeyPurpose.authenticationKey (by decide) (by decide)
      (by decide) (by decide) (by decide)⟩

/-- C4 (amended): `Ed25519Key` and `ECDSASecp256k1Key` verify on
construction that a supplied public key equals the one derived from the
supplied private key, and fail with the mismatch error otherwise; `RSAKey`
performs no such check and stores any pair of PEM strings, so its
construction succeeds even for a mismatched pair. -/
theorem c4_keypair_verification (C : Crypto) (freshPair : Bytes × Bytes)
    (freshPem : String × String) (pub priv : KeyArg) (pemPub pemPriv : String) :
    (∀ u, mkEd25519Key C freshPair (some pub) (some priv) = .ok u →
      decodeArg C pub = C.edPubOfSecret (decodeArg C priv) ∧
      u = .ed (C.edPubOfSecret (decodeArg C priv)) (some (decodeArg C priv))) ∧
    (decodeArg C pub ≠ C.edPubOfSecret (decodeArg C priv) →
      mkEd25519Key C freshPair (some pub) (some priv) = .error pubPrivMismatchMsg) ∧
    (∀ u, mkECDSASecp256k1Key C freshPair (some pub) (some priv) = .ok u →
      decodeArg C pub = C.ecPubOfSecret (decodeArg C priv) ∧
      u = .ec (C.ecPubOfSecret (decodeArg C priv)) (some (decodeArg C priv))) ∧
    (decodeArg C pub ≠ C.ecPubOfSecret (decodeArg C priv) →
      mkECDSASecp256k1Key C freshPair (some pub) (some priv) = .error pubPrivMismatchMsg) ∧
    mkRSAKey freshPem (some pemPub) (some pemPriv) =
      .ok (.rsa (some pemPub) (some pemPriv)) := by
  refine ⟨?_, ?_, ?_, ?_, rfl⟩
  · intro u hu
    simp only [mkEd25519Key] at hu
    split at hu
    · exact Except.noConfusion hu
    · rename_i h
      exact ⟨not_not.mp h, ((Except.ok.injEq _ _).mp hu).symm⟩
  · intro hne
    simp [mkEd25519Key, hne]
  · intro u hu
    simp only [mkECDSASecp256k1Key] at hu
    split at hu
    · exact Except.noConfusion hu
    · rename_i h
      exact ⟨not_not.mp h, ((Except.ok.injEq _ _).mp hu).symm⟩
  · intro hne
    simp [mkECDSASecp256k1Key, hne]

/-- C4 counterexample: the claim fails for `RSAKey` — with the concrete
collaborator `trivialCrypto`, the PEM public key `"MISMATCHED-PUB"` is not
the public key of `"PRIV-KEY"`, yet construction with the pair succeeds,
both at the adapter and through an RSA `ManagementKey`'s underlying-key
construction. -/
theorem c4_counterexample :
    trivialCrypto.rsaPubOfPriv "PRIV-KEY" ≠ "MISMATCHED-PUB" ∧
    mkRSAKey ("", "") (some "MISMATCHED-PUB") (some "PRIV-KEY") =
      .ok (.rsa (some "MISMATCHED-PUB") (some "PRIV-KEY")) ∧
    mkUnderlying trivialCrypto emptyFresh KeyType.rsa
      (some (.str "MISMATCHED-PUB")) (some (.str "PRIV-KEY")) =
      .ok (.rsa (some "MISMATCHED-PUB") (some "PRIV-KEY")) := by
  refine ⟨by decide, rfl, rfl⟩

theorem c4_witness :
    ((∀ u, mkEd25519Key trivialCrypto ([], [])
        (some (KeyArg.buf (demoSecret.drop 32))) (some (KeyArg.buf demoSecret)) = .ok u →
      decodeArg trivialCrypto (KeyArg.buf (demoSecret.drop 32)) =
        trivialCrypto.edPubOfSecret (decodeArg trivialCrypto (KeyArg.buf demoSecret)) ∧
      u = .ed (trivialCrypto.edPubOfSecret (decodeArg trivialCrypto (KeyArg.buf demoSecret)))
        (some (decodeArg trivialCrypto (KeyArg.buf demoSecret)))) ∧
    (decodeArg trivialCrypto (KeyArg.buf (demoSecret.drop 32)) ≠
        trivialCrypto.edPubOfSecret (decodeArg trivialCrypto (KeyArg.buf demoSecret)) →
      mkEd25519Key trivialCrypto ([], []) (some (KeyArg.buf (demoSecret.drop 32)))
        (some (KeyArg.buf demoSecret)) = .error pubPrivMismatchMsg) ∧
    (∀ u, mkECDSASecp256k1Key trivialCrypto ([], [])
        (some (KeyArg.buf (demoSecret.drop 32))) (some (KeyArg.buf demoSecret)) = .ok u →
      decodeArg trivialCrypto (KeyArg.buf (demoSecret.drop 32)) =
        trivialCrypto.ecPubOfSecret (decodeArg trivialCrypto (KeyArg.buf demoSecret)) ∧
      u = .ec (trivialCrypto.ecPubOfSecret (decodeArg trivialCrypto (KeyArg.buf demoSecret)))
        (some (decodeArg trivialCrypto (KeyArg.buf demoSecret)))) ∧
    (decodeArg trivialCrypto (KeyArg.buf (demoSecret.drop 32)) ≠
        trivialCrypto.ecPubOfSecret (decodeArg trivialCrypto (KeyArg.buf demoSecret)) →
      mkECDSASecp256k1Key trivialCrypto ([], []) (some (KeyArg.buf (demoSecret.drop 32)))
        (some (KeyArg.buf demoSecret)) = .error pubPrivMismatchMsg) ∧
    mkRSAKey ("gen-pub", "gen-priv") (some "pem-pub") (some "pem-priv") =
      .ok (.rsa (some "pem-pub") (some "pem-priv"))) ∧
    mkEd25519Key trivialCrypto ([], []) (some (KeyArg.buf (demoSecret.drop 32)))
      (some (KeyArg.buf demoSecret)) = .ok (.ed (demoSecret.drop 32) (some demoSecret)) :=
  ⟨c4_keypair_verification trivialCrypto ([], []) ("gen-pub", "gen-priv")
      (KeyArg.buf (demoSecret.drop 32)) (KeyArg.buf demoSecret) "pem-pub" "pem-priv",
    by decide⟩

/-- C2 (amended): after rotating a management key via `rotateManagementKey`
or a DID key via `rotateDIDKey`, the clone with the fresh key material is
detected as new and emitted in the add object, AND the diff also emits an
«alias»-based `{id}` revoke entry for the same key id (the snapshot copy's
serialized form is absent from the current collection), carrying no key
material. -/
theorem c2_rotation_add_and_revoke :
    (∀ (C : Crypto) (u u' : DIDUpdater) (a : String) (k : ManagementKey)
      (fresh : FreshKeyMaterial) (rotated : Underlying),
      u.didBuilder.managementKeys.find? (fun k' => k'.«alias» = a) = some k →
      k.underlyingKey.rotate fresh = .ok rotated →
      u.rotateManagementKey fresh a = .ok u' →
      k ∈ u.originalManagementKeys →
      (∀ k' ∈ u.originalManagementKeys, k'.underlyingKey ≠ rotated) →
      u'.originalManagementKeys = u.originalManagementKeys ∧
      { k with underlyingKey := rotated } ∈ u'.didBuilder.managementKeys ∧
      ({ k with underlyingKey := rotated } : ManagementKey).toEntryObj C
          u'.didBuilder.id ∈
        getNewMgmtKeys C u'.didBuilder.id u'.originalManagementKeys
          u'.didBuilder.managementKeys ∧
      (⟨fullId u'.didBuilder.id k.«alias», none⟩ : RevokeEntry) ∈
        getRevokedMgmtKeys u'.didBuilder.id u'.originalManagementKeys
          u'.didBuilder.managementKeys) ∧
    (∀ (C : Crypto) (u u' : DIDUpdater) (a : String) (k : DIDKey)
      (fresh : FreshKeyMaterial) (rotated : Underlying),
      u.didBuilder.didKeys.find? (fun k' => k'.«alias» = a) = some k →
      k.underlyingKey.rotate fresh = .ok rotated →
      u.rotateDIDKey fresh a = .ok u' →
      k ∈ u.originalDIDKeys →
      (∀ k' ∈ u.originalDIDKeys, k'.underlyingKey ≠ rotated) →
      u'.originalDIDKeys = u.originalDIDKeys ∧
      { k with underlyingKey := rotated } ∈ u'.didBuilder.didKeys ∧
      ({ k with underlyingKey := rotated } : DIDKey).toEntryObj C
          u'.didBuilder.id ∈
        getNewDIDKeys C u'.didBuilder.id u'.originalDIDKeys
          u'.didBuilder.didKeys ∧
      (⟨fullId u'.didBuilder.id k.«alias», none⟩ : RevokeEntry) ∈
        getRevokedDIDKeys u'.didBuilder.id u'.originalDIDKeys
          u'.didBuilder.didKeys) := by
  constructor
  · intro C u u' a k fresh rotated hfind hrotu hrot horig hne
    have halias : k.«alias» = a := by
      have := List.find?_some hfind
      simpa using this
    simp only [DIDUpdater.rotateManagementKey, hfind, hrotu, Bind.bind, Except.bind,
      Except.ok.injEq] at hrot
    subst hrot
    have hcloneNotOrig : { k with underlyingKey := rotated } ∉
        u.originalManagementKeys := by
      intro hmem
      exact hne _ hmem rfl
    refine ⟨rfl, ?_, ?_, ?_⟩
    · exact List.mem_append_right _ (List.mem_singleton.mpr rfl)
    · refine List.mem_map.mpr ⟨{ k with underlyingKey := rotated }, ?_, rfl⟩
      refine List.mem_filter.mpr
        ⟨List.mem_append_right _ (List.mem_singleton.mpr rfl), ?_⟩
      simpa using hcloneNotOrig
    · refine List.mem_map.mpr ⟨k, ?_, by rw [halias]⟩
      refine List.mem_filter.mpr ⟨horig, ?_⟩
      simp [halias]
      exact fun he => hne k horig (congrArg ManagementKey.underlyingKey he)
  · intro C u u' a k fresh rotated hfind hrotu hrot horig hne
    have halias : k.«alias» = a := by
      have := List.find?_some hfind
      simpa using this
    simp only [DIDUpdater.rotateDIDKey, hfind, hrotu, Bind.bind, Except.bind,
      Except.ok.injEq] at hrot
    subst hrot
    have hcloneNotOrig : { k with underlyingKey := rotated } ∉ u.originalDIDKeys := by
      intro hmem
      exact hne _ hmem rfl
    refine ⟨rfl, ?_, ?_, ?_⟩
    · exact List.mem_append_right _ (List.mem_singleton.mpr rfl)
    · refine List.mem_map.mpr ⟨{ k with underlyingKey := rotated }, ?_, rfl⟩
      refine List.mem_filter.mpr
        ⟨List.mem_append_right _ (List.mem_singleton.mpr rfl), ?_⟩
      simpa using hcloneNotOrig
    · refine List.mem_map.mpr ⟨k, ?_, by rw [halias]⟩
      refine List.mem_filter.mpr ⟨horig, ?_⟩
      simp [halias]
      exact fun he => hne k horig (congrArg DIDKey.underlyingKey he)

set_option maxRecDepth 400000 in
/-- C2 counterexample: rotating the demo updater's only management key
(resp. the demo DID key) and exporting yields a successful update entry
whose diff contains both an add entry for the rotated key and a revoke
entry with that key's id — contradicting "no revoke entry with that key's
id is emitted" for both `rotateManagementKey` and `rotateDIDKey`. -/
theorem c2_counterexample :
    (demoUpdater.rotateManagementKey freshMaterial "my-key-1" = .ok rotatedUpdater ∧
      rotatedUpdater.exportEntryData trivialCrypto = .ok rotatedEntry ∧
      getRevokedMgmtKeys rotatedUpdater.didBuilder.id
          rotatedUpdater.originalManagementKeys
          rotatedUpdater.didBuilder.managementKeys =
        [⟨fullId demoDidId "my-key-1", none⟩] ∧
      (getNewMgmtKeys trivialCrypto rotatedUpdater.didBuilder.id
          rotatedUpdater.originalManagementKeys
          rotatedUpdater.didBuilder.managementKeys).length = 1) ∧
    (demoUpdaterDK.rotateDIDKey freshMaterial "did-key-1" = .ok rotatedDKUpdater ∧
      rotatedDKUpdater.exportEntryData trivialCrypto = .ok rotatedDKEntry ∧
      getRevokedDIDKeys rotatedDKUpdater.didBuilder.id
          rotatedDKUpdater.originalDIDKeys
          rotatedDKUpdater.didBuilder.didKeys =
        [⟨fullId demoDidId "did-key-1", none⟩] ∧
      (getNewDIDKeys trivialCrypto rotatedDKUpdater.didBuilder.id
          rotatedDKUpdater.originalDIDKeys
          rotatedDKUpdater.didBuilder.didKeys).length = 1) :=
  ⟨⟨by decide, by decide, by decide, by decide⟩,
    ⟨by decide, by decide, by decide, by decide⟩⟩

set_option maxRecDepth 400000 in
theorem c2_witness :
    (demoUpdater.didBuilder.managementKeys.find?
        (fun k' => k'.«alias» = "my-key-1") = some demoMgmtKey ∧
    demoMgmtKey.underlyingKey.rotate freshMaterial =
      .ok (.ed (List.replicate 32 9) (some (List.replicate 64 9))) ∧
    demoUpdater.rotateManagementKey freshMaterial "my-key-1" = .ok rotatedUpdater ∧
    (rotatedUpdater.originalManagementKeys = demoUpdater.originalManagementKeys ∧
      { demoMgmtKey with
          underlyingKey := .ed (List.replicate 32 9) (some (List.replicate 64 9)) } ∈
        rotatedUpdater.didBuilder.managementKeys ∧
      ({ demoMgmtKey with
          underlyingKey := .ed (List.replicate 32 9) (some (List.replicate 64 9)) } :
            ManagementKey).toEntryObj trivialCrypto rotatedUpdater.didBuilder.id ∈
        getNewMgmtKeys trivialCrypto rotatedUpdater.didBuilder.id
          rotatedUpdater.originalManagementKeys
          rotatedUpdater.didBuilder.managementKeys ∧
      (⟨fullId rotatedUpdater.didBuilder.id demoMgmtKey.«alias», none⟩ : RevokeEntry) ∈
        getRevokedMgmtKeys rotatedUpdater.didBuilder.id
          rotatedUpdater.originalManagementKeys
          rotatedUpdater.didBuilder.managementKeys)) ∧
    (demoUpdaterDK.didBuilder.didKeys.find?
        (fun k' => k'.«alias» = "did-key-1") = some demoDIDKey ∧
    demoDIDKey.underlyingKey.rotate freshMaterial =
      .ok (.ed (List.replicate 32 9) (some (List.replicate 64 9))) ∧
    demoUpdaterDK.rotateDIDKey freshMaterial "did-key-1" = .ok rotatedDKUpdater ∧
    (rotatedDKUpdater.originalDIDKeys = demoUpdaterDK.originalDIDKeys ∧
      { demoDIDKey with
          underlyingKey := .ed (List.replicate 32 9) (some (List.replicate 64 9)) } ∈
        rotatedDKUpdater.didBuilder.didKeys ∧
      ({ demoDIDKey with
          underlyingKey := .ed (List.replicate 32 9) (some (List.replicate 64 9)) } :
            DIDKey).toEntryObj trivialCrypto rotatedDKUpdater.didBuilder.id ∈
        getNewDIDKeys trivialCrypto rotatedDKUpdater.didBuilder.id
          rotatedDKUpdater.originalDIDKeys
          rotatedDKUpdater.didBuilder.didKeys ∧
      (⟨fullId rotatedDKUpdater.didBuilder.id demoDIDKey.«alias», none⟩ : RevokeEntry) ∈
        getRevokedDIDKeys rotatedDKUpdater.didBuilder.id
          rotatedDKUpdater.originalDIDKeys
          rotatedDKUpdater.didBuilder.didKeys)) :=
  ⟨⟨by decide, by decide, by decide,
    c2_rotation_add_and_revoke.1 trivialCrypto demoUpdater rotatedUpdater "my-key-1"
      demoMgmtKey freshMaterial (.ed (List.replicate 32 9) (some (List.replicate 64 9)))
      (by decide) (by decide) (by decide) (by decide) (by decide)⟩,
   ⟨by decide, by decide, by decide,
    c2_rotation_add_and_revoke.2 trivialCrypto demoUpdaterDK rotatedDKUpdater "did-key-1"
      demoDIDKey freshMaterial (.ed (List.replicate 32 9) (some (List.replicate 64 9)))
      (by decide) (by decide) (by decide) (by decide) (by decide)⟩⟩

theorem takeDigits_replicate_zero (n : Nat) :
    takeDigits (List.replicate n '0') = (List.replicate n '0', []) := by
  induction n with
  | zero => simp [takeDigits]
  | succ n ih =>
    rw [List.replicate_succ]
    simp [takeDigits, ih]

theorem foldl_digits_replicate_zero (n acc : Nat) :
    List.foldl (fun acc c => acc * 10 + (c.toNat - 48)) acc
      (List.replicate n '0') = acc * 10 ^ n := by
  induction n generalizing acc with
  | zero => simp
  | succ n ih =>
    rw [List.replicate_succ, List.foldl_cons, ih]
    have h0 : '0'.toNat - 48 = 0 := rfl
    rw [h0, pow_succ]
    ring

theorem takeDigits_cons_digit (c : Char) (l : List Char)
    (h : 48 ≤ c.toNat ∧ c.toNat ≤ 57) :
    takeDigits (c :: l) = (c :: (takeDigits l).1, (takeDigits l).2) := by
  simp only [takeDigits, if_pos h]

theorem takeDigits_cons_nondigit (c : Char) (l : List Char)
    (h : ¬ (48 ≤ c.toNat ∧ c.toNat ≤ 57)) :
    takeDigits (c :: l) = ([], c :: l) := by
  simp only [takeDigits, if_neg h]

theorem jsParseFloat_version_shape (n : Nat) :
    jsParseFloat (String.mk ('0' :: '.' :: '3' :: List.replicate n '0')) =
      some (3 * 10 ^ n, n + 1) := by
  have h1 : takeDigits ('0' :: '.' :: '3' :: List.replicate n '0') =
      (['0'], '.' :: '3' :: List.replicate n '0') := by
    rw [takeDigits_cons_digit _ _ (by decide),
      takeDigits_cons_nondigit _ _ (by decide)]
  have h2 : takeDigits ('3' :: List.replicate n '0') =
      ('3' :: List.replicate n '0', []) := by
    rw [takeDigits_cons_digit _ _ (by decide), takeDigits_replicate_zero]
  have h3 : digitsToNat ('3' :: List.replicate n '0') = 3 * 10 ^ n := by
    simp only [digitsToNat, List.foldl_cons]
    have hc : (0 * 10 + ('3'.toNat - 48)) = 3 := by decide
    rw [hc, foldl_digits_replicate_zero]
  simp only [jsParseFloat, h1, h2]
  simp only [List.length_cons, List.length_replicate]
  rw [if_neg (by simp)]
  rw [h3]
  simp [digitsToNat]

theorem jsParseFloat_bigVersion :
    jsParseFloat bigVersion = some (3 * 10 ^ 9998, 9999) :=
  jsParseFloat_version_shape 9998

theorem upgradeSpecVersion_bigVersion :
    demoBuilder.upgradeSpecVersion bigVersion = .ok bigUpgrader := by
  have hcond : ¬ (bigVersion = "" ∨
      floatLE (jsParseFloat bigVersion)
        (jsParseFloat (demoBuilder.specVersion.getD "")) = true) := by
    rintro (h | h)
    · have := congrArg String.data h
      have hd : bigVersion.data = '0' :: '.' :: '3' :: List.replicate 9998 '0' := rfl
      rw [hd] at this
      exact List.cons_ne_nil _ _ this
    · have hold : demoBuilder.specVersion.getD "" = "0.2.0" := rfl
      rw [hold, jsParseFloat_bigVersion] at h
      have hsmall : jsParseFloat "0.2.0" = some (2, 1) := by decide
      rw [hsmall] at h
      simp only [floatLE, decide_eq_true_eq] at h
      have heq : (3:ℕ) * 10 ^ 9998 * 10 ^ 1 = 3 * 10 ^ 9999 := by
        rw [pow_succ]
        ring
      rw [heq] at h
      have hx : 0 < (10:ℕ) ^ 9999 := pow_pos (by norm_num) _
      omega
  have hlen : ¬ (demoBuilder.managementKeys.length = 0) := by decide
  simp only [DIDBuilder.upgradeSpecVersion, mkDIDVersionUpgrader, if_neg hlen,
    if_neg hcond]
  rfl

/-- C3 (amended): the entry size limit is validated only by the update
protocol — a successful `DIDUpdater.exportEntryData` never exceeds 10,000
bytes and an over-limit update fails with the dedicated size-limit error —
while `DIDVersionUpgrader.exportEntryData` and
`DIDDeactivator.exportEntryData` perform no size check at all (their only
failures are a missing private key or the empty-key-list `TypeError`). -/
theorem c3_size_limit_update_only :
    (∀ (C : Crypto) (u : DIDUpdater) (e : EntryData),
      u.exportEntryData C = .ok e →
      calculateEntrySize e.extIds e.content ≤ ENTRY_SIZE_LIMIT) ∧
    (∀ (C : Crypto) (u : DIDUpdater) (parts : EntryData),
      u.updateEntryParts C = .ok parts →
      calculateEntrySize parts.extIds parts.content > ENTRY_SIZE_LIMIT →
      u.exportEntryData C = .error "You have exceeded the entry size limit!") ∧
    (∀ (C : Crypto) (up : DIDVersionUpgrader) (e : String),
      up.exportEntryData C = .error e →
      e = "Private key is not set." ∨
      e = "TypeError: Cannot read properties of undefined (reading fullId)") ∧
    (∀ (C : Crypto) (d : DIDDeactivator) (e : String),
      d.exportEntryData C = .error e → e = "Private key is not set.") := by
  refine ⟨?_, ?_, ?_, ?_⟩
  · intro C u e h
    simp only [DIDUpdater.exportEntryData, Bind.bind, Except.bind] at h
    cases hp : u.updateEntryParts C with
    | error e' => rw [hp] at h; simp at h
    | ok parts =>
      rw [hp] at h
      change (if calculateEntrySize parts.extIds parts.content > ENTRY_SIZE_LIMIT then
          Except.error "You have exceeded the entry size limit!"
        else Except.ok parts) = Except.ok e at h
      split at h
      · simp at h
      · rename_i hsz
        have : parts = e := by simpa using (Except.ok.injEq _ _).mp h
        subst this
        omega
  · intro C u parts hp hsz
    simp only [DIDUpdater.exportEntryData, Bind.bind, Except.bind, hp]
    change (if calculateEntrySize parts.extIds parts.content > ENTRY_SIZE_LIMIT then
        Except.error "You have exceeded the entry size limit!"
      else Except.ok parts) = _
    rw [if_pos hsz]
  · intro C up e h
    simp only [DIDVersionUpgrader.exportEntryData, Bind.bind, Except.bind] at h
    split at h
    · right
      exact ((Except.error.injEq _ _).mp h).symm
    · rename_i signingKey hsel
      cases hs : signingKey.underlyingKey.sign C
          (C.sha256 (utf8 (entryTypeVersionUpgrade ++ ENTRY_SCHEMA_V100 ++
            fullId up.didBuilder.id signingKey.«alias» ++
            jobj [jmember "didMethodVersion" (jstr up.newSpecVersion)]))) with
      | error e' =>
        rw [hs] at h
        simp only [Except.error.injEq] at h
        left
        rw [← h]
        exact sign_error_msg C _ _ e' hs
      | ok sig => rw [hs] at h; simp at h
  · intro C d e h
    simp only [DIDDeactivator.exportEntryData, Bind.bind, Except.bind] at h
    cases hs : d.signingKey.underlyingKey.sign C
        (C.sha256 (utf8 (entryTypeDeactivation ++ ENTRY_SCHEMA_V100 ++
          fullId d.didBuilder.id d.signingKey.«alias»))) with
    | error e' =>
      rw [hs] at h
      simp only [Except.error.injEq] at h
      rw [← h]
      exact sign_error_msg C _ _ e' hs
    | ok sig => rw [hs] at h; simp at h

/-- C3 counterexample: a version upgrade whose content alone exceeds the
10,000-byte ceiling (the new version string parses as 0.3, an upgrade on
0.2.0) still exports successfully — `DIDVersionUpgrader.exportEntryData`
performs no size-limit check. -/
theorem c3_counterexample :
    demoBuilder.upgradeSpecVersion bigVersion = .ok bigUpgrader ∧
    bigUpgrader.exportEntryData trivialCrypto = .ok bigUpgradeEntry ∧
    calculateEntrySize bigUpgradeEntry.extIds bigUpgradeEntry.content >
      ENTRY_SIZE_LIMIT := by
  refine ⟨upgradeSpecVersion_bigVersion, rfl, ?_⟩
  have hcontent : bigUpgradeEntry.content =
      utf8 (jobj [jmember "didMethodVersion" (jstr bigVersion)]) := rfl
  have hvlen : bigVersion.data.length = 10001 := by
    have hd : bigVersion.data = '0' :: '.' :: '3' :: List.replicate 9998 '0' := rfl
    rw [hd, List.length_cons, List.length_cons, List.length_cons,
      List.length_replicate]
  have hjstr : 10003 ≤ (jstr bigVersion).data.length := by
    have := jstr_length_ge bigVersion
    omega
  have hobj : (jstr bigVersion).data.length ≤
      (jobj [jmember "didMethodVersion" (jstr bigVersion)]).data.length := by
    simp only [jobj, joinComma, jmember, jsonLBrace, jsonRBrace, String.data_append,
      List.length_append]
    omega
  have hutf : (jobj [jmember "didMethodVersion" (jstr bigVersion)]).data.length ≤
      (utf8 (jobj [jmember "didMethodVersion" (jstr bigVersion)])).length :=
    utf8_length_ge _
  rw [hcontent]
  simp only [calculateEntrySize, ENTRY_SIZE_LIMIT]
  omega

set_option maxRecDepth 400000 in
theorem c3_witness :
    (demoUpdaterAfterOps.exportEntryData trivialCrypto = .ok demoUpdateEntry ∧
      calculateEntrySize demoUpdateEntry.extIds demoUpdateEntry.content ≤
        ENTRY_SIZE_LIMIT) ∧
    (demoUpdaterAfterOps.updateEntryParts bigSigCrypto = .ok bigSigParts ∧
      calculateEntrySize bigSigParts.extIds bigSigParts.content >
        ENTRY_SIZE_LIMIT ∧
      demoUpdaterAfterOps.exportEntryData bigSigCrypto =
        .error "You have exceeded the entry size limit!") ∧
    (noPrivUpgrader.exportEntryData trivialCrypto =
        .error "Private key is not set." ∧
      ("Private key is not set." = "Private key is not set." ∨
        "Private key is not set." =
          "TypeError: Cannot read properties of undefined (reading fullId)")) ∧
    (noPrivDeactivator.exportEntryData trivialCrypto =
        .error "Private key is not set." ∧
      "Private key is not set." = "Private key is not set.") := by
  have hbigsize : calculateEntrySize bigSigParts.extIds bigSigParts.content >
      ENTRY_SIZE_LIMIT := by
    have hx : bigSigParts.extIds = [utf8 entryTypeUpdate, utf8 ENTRY_SCHEMA_V100,
        utf8 (fullId demoDidId "my-key-1"), List.replicate 10001 1] := rfl
    simp only [calculateEntrySize, hx, List.map_cons, List.map_nil, List.sum_cons,
      List.sum_nil, List.length_replicate, ENTRY_SIZE_LIMIT]
    omega
  refine ⟨⟨by decide, ?_⟩, ⟨rfl, hbigsize, ?_⟩, ⟨by decide, Or.inl rfl⟩, ⟨by decide, rfl⟩⟩
  · exact c3_size_limit_update_only.1 trivialCrypto demoUpdaterAfterOps
      demoUpdateEntry (by decide)
  · exact c3_size_limit_update_only.2.1 bigSigCrypto demoUpdaterAfterOps
      bigSigParts rfl hbigsize

end FactomDID
